import Mathlib

/-!
Verification of the caching service `redis-valkey-first/src/cache_service.py`.

The Python source is shallowly embedded: every pure helper becomes a Lean
function, every stateful Redis/Valkey flow becomes explicit state passing over
a `Store` (a map from keys to blob-with-expiry entries) together with an
explicit rational clock `now`.  Randomness (the TTL jitter draw of
`random.uniform`) is passed in as an explicit parameter, and the environment's
interference during a suspension point (the singleflight sleep) is passed in as
the store observed after the sleep.  Fallible paths (`json.loads` raising)
return an explicit `PyResult`.
-/

namespace CacheService

/-- Python `int()` applied to a rational: truncation toward zero. -/
def pyInt (q : ℚ) : ℤ := if 0 ≤ q then q.floor else -((-q).floor)

/-- Configuration constant `JITTER_RANGE` (env default `"0.15"`, i.e. ±15%). -/
def JITTER_RANGE : ℚ := 15 / 100

/-- Configuration constant `NEG_TTL` (env default `"30"` seconds). -/
def NEG_TTL : ℤ := 30

/-- Configuration constant `SWR_LOCK_TTL` (env default `"5"` seconds). -/
def SWR_LOCK_TTL : ℤ := 5

/-- Configuration constant `REBUILD_LOCK_TTL` (env default `"5"` seconds). -/
def REBUILD_LOCK_TTL : ℤ := 5

/-- Configuration constant `QUEUE_KEY` (env default `"wb:queue"`). -/
def QUEUE_KEY : String := "wb:queue"

/-- Configuration constant `CACHE_VER` (env default `"v1"`). -/
def CACHE_VER : String := "v1"

/-- Source `_with_jitter(ttl_sec)`: `if ttl_sec <= 0: return ttl_sec;
delta = ttl_sec * JITTER_RANGE; return int(ttl_sec + random.uniform(-delta, +delta))`.
The uniform draw `u` (a value in `[-delta, +delta]`) is passed explicitly. -/
def _with_jitter (ttl_sec : ℤ) (u : ℚ) : ℤ :=
  if ttl_sec ≤ 0 then ttl_sec else pyInt ((ttl_sec : ℚ) + u)

/-- Python `str.join`: `sep.join(parts)`. -/
def strJoin (sep : String) : List String → String
  | [] => ""
  | [x] => x
  | x :: y :: rest => x ++ sep ++ strJoin sep (y :: rest)

/-- Source `kv(*parts)`: `":".join((CACHE_VER, *parts))` — versioned cache key. -/
def kv (parts : List String) : String := strJoin ":" (CACHE_VER :: parts)

/-- Source class `CircuitBreaker.__init__` state:
`failure_count`, `failure_threshold`, `recovery_timeout`, `last_failure_time`,
`is_open`.  Times are rationals (`time.time()` values). -/
structure CircuitBreaker where
  failure_count : ℕ
  failure_threshold : ℕ
  recovery_timeout : ℚ
  last_failure_time : ℚ
  is_open : Bool
deriving DecidableEq, Repr

/-- Source `CircuitBreaker.record_success`: zero the failure count and close. -/
def CircuitBreaker.record_success (cb : CircuitBreaker) : CircuitBreaker :=
  { cb with failure_count := 0, is_open := false }

/-- Source `CircuitBreaker.record_failure`: increment the count, stamp
`last_failure_time = time.time()`, and open once `failure_count >= failure_threshold`. -/
def CircuitBreaker.record_failure (cb : CircuitBreaker) (now : ℚ) : CircuitBreaker :=
  let cb1 := { cb with failure_count := cb.failure_count + 1, last_failure_time := now }
  if cb1.failure_threshold ≤ cb1.failure_count then { cb1 with is_open := true } else cb1

/-- Source `CircuitBreaker.can_attempt`: closed breakers always allow the call;
an open breaker allows it only after `recovery_timeout` has elapsed since
`last_failure_time`, in which case it also closes itself and zeroes the count
(the state mutation is returned as the second component). -/
def CircuitBreaker.can_attempt (cb : CircuitBreaker) (now : ℚ) : Bool × CircuitBreaker :=
  if cb.is_open = false then (true, cb)
  else if cb.recovery_timeout < now - cb.last_failure_time then
    (true, { cb with is_open := false, failure_count := 0 })
  else (false, cb)

/-- Outcome of one awaited client operation inside `safe_redis_operation`:
a value, a connection/timeout error (`valkey.ConnectionError`,
`valkey.TimeoutError`, `asyncio.TimeoutError`), or any other exception. -/
inductive OpOutcome (β : Type) where
  | ok (value : β)
  | connectionFailure
  | otherFailure
deriving DecidableEq, Repr

/-- Result record of `safe_redis_operation`: the returned value (`none` models
Python `None`, the default fallback), the breaker state afterwards, and whether
the underlying operation was attempted at all. -/
structure SafeOpResult (β : Type) where
  result : Option β
  breaker : CircuitBreaker
  attempted : Bool

/-- Source `safe_redis_operation(operation, *args, fallback=None, **kwargs)`:
if `can_attempt` is false the fallback is returned without running the
operation; otherwise the operation runs, success records a success, a
connection/timeout failure records a failure and yields the fallback, and any
other exception yields the fallback without touching the breaker. -/
def safe_redis_operation (cb : CircuitBreaker) (now : ℚ) (outcome : OpOutcome β)
    (fallback : Option β) : SafeOpResult β :=
  match cb.can_attempt now with
  | (false, cb1) => ⟨fallback, cb1, false⟩
  | (true, cb1) =>
    match outcome with
    | .ok v => ⟨some v, cb1.record_success, true⟩
    | .connectionFailure => ⟨fallback, cb1.record_failure now, true⟩
    | .otherFailure => ⟨fallback, cb1, true⟩

/-- Record stored in the simulated origin `_USERS` (`{"id","name","title"}`). -/
structure UserRec where
  id : String
  name : String
  title : String
deriving DecidableEq, Repr

/-- JSON-serializable values the service stores under data keys: user records
and the derived who-to-follow widget `{"suggestions": [...]}`. -/
inductive Val where
  | user (u : UserRec)
  | widget (suggestions : List String)
deriving DecidableEq, Repr

/-- One serialized write-behind queue message:
`json.dumps({"topic": ..., "payload": ..., "ts": time.time()})`. -/
structure WBItem (α : Type) where
  topic : String
  payload : α
  ts : ℚ
deriving DecidableEq, Repr

/-- Byte string stored under one key.  Constructors mirror exactly what the
service ever writes: `json.dumps(value)`, the SWR wrapper
`json.dumps({"value": v, "stale_at": t})`, the negative sentinel `"__nil__"`,
plain marker strings (the lock value `"1"`), rate-limit counters (Redis stores
integers as strings), Redis sets (dependency sets) and Redis lists (the
write-behind queue). -/
inductive Blob (α : Type) where
  | json (a : α)
  | jsonSWR (a : α) (staleAt : ℚ)
  | nil
  | mark (s : String)
  | count (n : ℕ)
  | sset (members : List String)
  | rlist (items : List (WBItem α))
deriving DecidableEq, Repr

/-- A stored entry: the blob plus its absolute expiry time (`none` = no TTL,
the key persists). -/
structure Entry (α : Type) where
  blob : Blob α
  expireAt : Option ℚ
deriving DecidableEq, Repr

/-- The key-value backend: a map from keys to entries. -/
def Store (α : Type) := String → Option (Entry α)

/-- A store with no keys. -/
def emptyStore : Store α := fun _ => none

/-- Overwrite one key. -/
def Store.upd (s : Store α) (k : String) (e : Entry α) : Store α :=
  fun k2 => if k2 = k then some e else s k2

/-- Remove one key (Redis `DEL`). -/
def Store.del (s : Store α) (k : String) : Store α :=
  fun k2 => if k2 = k then none else s k2

/-- Whether an entry is visible at time `now` (not yet past its expiry). -/
def Entry.live (e : Entry α) (now : ℚ) : Bool :=
  match e.expireAt with
  | none => true
  | some t => decide (now < t)

/-- Redis `GET`-style read: an expired key behaves exactly like a missing one. -/
def liveGet (s : Store α) (now : ℚ) (k : String) : Option (Blob α) :=
  match s k with
  | none => none
  | some e => if e.live now then some e.blob else none

/-- Redis `SETEX key ttl value`: absolute expiry `now + ttl`.  (Redis rejects
`SETEX` with a non-positive ttl; see `setex_ttl_ok`.) -/
def setex (s : Store α) (now : ℚ) (k : String) (ttl : ℤ) (b : Blob α) : Store α :=
  s.upd k ⟨b, some (now + (ttl : ℚ))⟩

/-- Modelled from the backend contract (spec §6): Redis/Valkey `SETEX` requires
a strictly positive ttl and raises `invalid expire time` otherwise. -/
def setex_ttl_ok (ttl : ℤ) : Bool := decide (0 < ttl)

/-- Redis `SET key value EX ttl NX`: succeeds only if the key is absent
(an expired entry counts as absent); returns whether it acquired. -/
def setnx (s : Store α) (now : ℚ) (k : String) (ttl : ℤ) (b : Blob α) :
    Bool × Store α :=
  match liveGet s now k with
  | some _ => (false, s)
  | none => (true, setex s now k ttl b)

/-- Redis `INCR`: a missing (or expired) key is created as `1` with no expiry;
a live counter is bumped, keeping its expiry.  A live key of another type would
be a Redis `WRONGTYPE` error — unreachable here, because only rate-limit keys
are ever incremented and they only ever hold counters; the model folds that
branch into the fresh-counter case. -/
def incr (s : Store α) (now : ℚ) (k : String) : ℕ × Store α :=
  match s k with
  | some e =>
    if e.live now then
      match e.blob with
      | .count n => (n + 1, s.upd k ⟨.count (n + 1), e.expireAt⟩)
      | _ => (1, s.upd k ⟨.count 1, none⟩)
    else (1, s.upd k ⟨.count 1, none⟩)
  | none => (1, s.upd k ⟨.count 1, none⟩)

/-- Redis `EXPIRE key w`: re-sets the expiry of a live key to `now + w`
(this MOVES an existing deadline); a missing or expired key is untouched. -/
def expireOp (s : Store α) (now : ℚ) (k : String) (w : ℤ) : Store α :=
  match s k with
  | some e => if e.live now then s.upd k ⟨e.blob, some (now + (w : ℚ))⟩ else s
  | none => s

/-- Redis `SADD`: add members to a live set, keeping its expiry; a missing or
expired key becomes a fresh set with no expiry.  A live key of another type
would be `WRONGTYPE` — unreachable (only dependency keys are `SADD`ed); the
model folds it into the fresh case. -/
def sadd (s : Store α) (now : ℚ) (k : String) (ms : List String) : Store α :=
  match s k with
  | some e =>
    if e.live now then
      match e.blob with
      | .sset cur => s.upd k ⟨.sset (cur ++ ms.filter (fun m => decide (m ∉ cur))), e.expireAt⟩
      | _ => s.upd k ⟨.sset ms.dedup, none⟩
    else s.upd k ⟨.sset ms.dedup, none⟩
  | none => s.upd k ⟨.sset ms.dedup, none⟩

/-- Redis `SMEMBERS` of a live set key. -/
def smembersOp (s : Store α) (now : ℚ) (k : String) : List String :=
  match liveGet s now k with
  | some (.sset ms) => ms
  | _ => []

/-- Redis `RPUSH queue item`: append to a live list, else create a fresh
one-element list (lists are written without TTL). -/
def rpush (s : Store α) (now : ℚ) (k : String) (item : WBItem α) : Store α :=
  match s k with
  | some e =>
    if e.live now then
      match e.blob with
      | .rlist items => s.upd k ⟨.rlist (items ++ [item]), e.expireAt⟩
      | _ => s.upd k ⟨.rlist [item], none⟩
    else s.upd k ⟨.rlist [item], none⟩
  | none => s.upd k ⟨.rlist [item], none⟩

/-- Redis `BLPOP` (non-blocking view): pop the head of the list if any;
popping the last element removes the key. -/
def blpop (s : Store α) (now : ℚ) (k : String) : Option (WBItem α × Store α) :=
  match s k with
  | some e =>
    if e.live now then
      match e.blob with
      | .rlist (item :: rest) =>
        some (item, if rest.isEmpty then s.del k else s.upd k ⟨.rlist rest, e.expireAt⟩)
      | _ => none
    else none
  | none => none

/-- Result of a Python call that can raise: `ok v`, or `exn` when an uncaught
exception (here, `json.JSONDecodeError`) propagates to the caller. -/
inductive PyResult (β : Type) where
  | ok (v : β)
  | exn
deriving DecidableEq, Repr

/-- What `json.loads(raw)` yields on a stored blob, as far as the read paths
inspect it: a plain value, the SWR wrapper dict (`{"value":…, "stale_at":…}`),
or some other JSON value (`jother`). -/
inductive JVal (α : Type) where
  | plain (a : α)
  | swrWrapped (a : α) (staleAt : ℚ)
  | jother
deriving DecidableEq, Repr

/-- Shallow model of `json.loads` on a stored blob.  `json.dumps` output decodes
back to itself; the sentinel `"__nil__"` is not valid JSON, so decoding raises
(`none`).  A marker string `"1"` would decode to the JSON number 1 (`jother`);
so would a counter (Redis returns it as the string of the integer).  `GET` on a
set or list key raises `WRONGTYPE` before any decode — those blobs are mapped
to the failure branch; none of these three cases is reachable through the
modelled read paths, whose key namespaces are disjoint from lock, rate-limit,
dependency and queue keys. -/
def decodeBlob : Blob α → Option (JVal α)
  | .json a => some (.plain a)
  | .jsonSWR a t => some (.swrWrapped a t)
  | .nil => none
  | .mark _ => some .jother
  | .count _ => some .jother
  | .sset _ => none
  | .rlist _ => none

/-- Output of `cache_aside_json`: the returned value, the store afterwards, the
number of `loader()` invocations, and the number of Redis client calls issued
(`r_r.get` / `r_w.setex`). -/
structure CacheAsideOut (α : Type) where
  result : PyResult (Option (JVal α))
  store : Store α
  loaderCalls : ℕ
  storeOps : ℕ

/-- Source `cache_aside_json(key, ttl, loader)`: read the key; on a hit return
`json.loads(raw)`; on a miss call the loader; `None` is returned as-is, other
values are written with `setex(key, _with_jitter(ttl), json.dumps(data))` and
returned.  The jitter draw `u` is explicit.  Note the reads and writes go
straight to the `r_r`/`r_w` clients — never through `safe_redis_operation`. -/
def cache_aside_json (s : Store α) (now : ℚ) (key : String) (ttl : ℤ)
    (loader : Option α) (u : ℚ) : CacheAsideOut α :=
  match liveGet s now key with
  | some b =>
    match decodeBlob b with
    | none => ⟨.exn, s, 0, 1⟩
    | some jv => ⟨.ok (some jv), s, 0, 1⟩
  | none =>
    match loader with
    | none => ⟨.ok none, s, 1, 1⟩
    | some d => ⟨.ok (some (.plain d)), setex s now key (_with_jitter ttl u) (.json d), 1, 2⟩

/-- Output of `get_with_singleflight_json`: result, store, loader invocations,
milliseconds slept, and how many re-reads of the key happened after the sleep. -/
structure SingleflightOut (α : Type) where
  result : PyResult (Option (JVal α))
  store : Store α
  loaderCalls : ℕ
  sleptMs : ℚ
  rereads : ℕ

/-- The loser branch of `get_with_singleflight_json` after its sleep:
`raw2 = await r_r.get(key)` at the post-sleep time against the post-sleep
store, decoded exactly as the hit path decodes; `None` when still absent. -/
def sfLoserRead (s2 : Store α) (t : ℚ) (key : String) (waitMs : ℚ) :
    SingleflightOut α :=
  match liveGet s2 t key with
  | some b2 =>
    match decodeBlob b2 with
    | none => ⟨.exn, s2, 0, waitMs, 1⟩
    | some jv => ⟨.ok (some jv), s2, 0, waitMs, 1⟩
  | none => ⟨.ok none, s2, 0, waitMs, 1⟩

/-- Source `get_with_singleflight_json(key, ttl, loader, wait_ms=150)`:
hit → return.  Miss → `SET lock:key "1" EX REBUILD_LOCK_TTL NX`.
Winner: call the loader, pipeline `setex(key, jittered ttl, data)` and
`setex("rebuilding:key", 2, "1")` when data is not `None`, and always delete
the lock (the `finally` block).  Loser: sleep `wait_ms`, re-read the key once
(`sfLoserRead`) and return whatever is found; the loader is never invoked.
The store observed after the sleep is the explicit parameter `storeAfterWait`
(other requests may have run during the suspension). -/
def get_with_singleflight_json (s : Store α) (now : ℚ) (key : String) (ttl : ℤ)
    (loader : Option α) (u : ℚ) (waitMs : ℚ) (storeAfterWait : Store α) :
    SingleflightOut α :=
  match liveGet s now key with
  | some b =>
    match decodeBlob b with
    | none => ⟨.exn, s, 0, 0, 0⟩
    | some jv => ⟨.ok (some jv), s, 0, 0, 0⟩
  | none =>
    let lockKey := "lock:" ++ key
    match setnx s now lockKey REBUILD_LOCK_TTL (.mark "1") with
    | (true, s1) =>
      match loader with
      | some d =>
        let s2 := setex s1 now key (_with_jitter ttl u) (.json d)
        let s3 := setex s2 now ("rebuilding:" ++ key) 2 (.mark "1")
        ⟨.ok (some (.plain d)), s3.del lockKey, 1, 0, 0⟩
      | none => ⟨.ok none, s1.del lockKey, 1, 0, 0⟩
    | (false, _) => sfLoserRead storeAfterWait (now + waitMs / 1000) key waitMs

/-- Output of `swr_get_json`: result, store (including a freshly taken refresh
lock), synchronous loader invocations, and whether a background refresh task
was created (`asyncio.create_task(_refresh())`). -/
structure SwrOut (α : Type) where
  result : PyResult (Option α)
  store : Store α
  loaderCalls : ℕ
  refreshScheduled : Bool

/-- The cold path of `swr_get_json`: call the loader synchronously; `None`
returns `None`; otherwise store `{"value": data, "stale_at": now + ttl}` with
total expiry `ttl + stale_grace` and return the value. -/
def swrCold (s : Store α) (now : ℚ) (key : String) (ttl stale_grace : ℤ)
    (loader : Option α) : SwrOut α :=
  match loader with
  | none => ⟨.ok none, s, 1, false⟩
  | some d =>
    ⟨.ok (some d), setex s now key (ttl + stale_grace) (.jsonSWR d (now + (ttl : ℚ))), 1, false⟩

/-- Source `swr_get_json(key, ttl, stale_grace, loader)`:
on a hit in SWR format, `now < stale_at` returns the value fresh; a stale entry
returns the stale value immediately and schedules a background refresh only if
`SET swrlock:key "1" EX SWR_LOCK_TTL NX` acquires.  A hit not in SWR format
falls through to the cold path (`swrCold`), as does a miss. -/
def swr_get_json (s : Store α) (now : ℚ) (key : String) (ttl stale_grace : ℤ)
    (loader : Option α) : SwrOut α :=
  match liveGet s now key with
  | some b =>
    match decodeBlob b with
    | none => ⟨.exn, s, 0, false⟩
    | some (.swrWrapped a staleAt) =>
      if now < staleAt then ⟨.ok (some a), s, 0, false⟩
      else
        match setnx s now ("swrlock:" ++ key) SWR_LOCK_TTL (.mark "1") with
        | (got, s1) => ⟨.ok (some a), s1, 0, got⟩
    | some _ => swrCold s now key ttl stale_grace loader
  | none => swrCold s now key ttl stale_grace loader

/-- Source `_refresh` (the fire-and-forget task scheduled by `swr_get_json`),
run at the later time `tRefresh`: re-run the loader; when it yields a value,
rewrite `{"value": data, "stale_at": tRefresh + ttl}` with expiry
`ttl + stale_grace`; in all cases (`finally`) delete the refresh lock. -/
def swr_refresh (s : Store α) (tRefresh : ℚ) (key : String) (ttl stale_grace : ℤ)
    (loader : Option α) : Store α :=
  let s1 :=
    match loader with
    | some d => setex s tRefresh key (ttl + stale_grace) (.jsonSWR d (tRefresh + (ttl : ℚ)))
    | none => s
  s1.del ("swrlock:" ++ key)

/-- Output of `get_with_negative_cache_json`. -/
structure NegCacheOut (α : Type) where
  result : PyResult (Option (JVal α))
  store : Store α
  loaderCalls : ℕ

/-- Source `get_with_negative_cache_json(key, ttl, loader)`: a hit equal to the
sentinel `"__nil__"` returns `None` without decoding; any other hit returns
`json.loads(raw)`.  A miss calls the loader; an absent result stores the
sentinel with `NEG_TTL` and returns `None`; a value is stored with the
jittered positive ttl. -/
def get_with_negative_cache_json (s : Store α) (now : ℚ) (key : String)
    (ttl : ℤ) (loader : Option α) (u : ℚ) : NegCacheOut α :=
  match liveGet s now key with
  | some .nil => ⟨.ok none, s, 0⟩
  | some b =>
    match decodeBlob b with
    | none => ⟨.exn, s, 0⟩
    | some jv => ⟨.ok (some jv), s, 0⟩
  | none =>
    match loader with
    | none => ⟨.ok none, setex s now key NEG_TTL .nil, 1⟩
    | some d => ⟨.ok (some (.plain d)), setex s now key (_with_jitter ttl u) (.json d), 1⟩

/-- Source `token_bucket(key, max_tokens, window_sec)` (success path of the
`try`): pipeline `INCR key` then `EXPIRE key window_sec`; allowed iff the
post-increment count is `<= max_tokens`.  (The `except` branch fails open and
is not modelled — no claim concerns backend errors here.) -/
def token_bucket (s : Store α) (now : ℚ) (key : String) (max_tokens : ℕ)
    (window_sec : ℤ) : Bool × Store α :=
  let (c, s1) := incr s now key
  let s2 := expireOp s1 now key window_sec
  (decide (c ≤ max_tokens), s2)

/-- Source `invalidate_dependencies(dep_key)`: delete every member of the
dependency set, then the set itself. -/
def invalidate_dependencies (s : Store α) (now : ℚ) (dep_key : String) : Store α :=
  let members := smembersOp s now dep_key
  (members.foldl (fun st m => st.del m) s).del dep_key

/-- Source `write_behind_enqueue(topic, payload)`:
`RPUSH QUEUE_KEY json.dumps({"topic", "payload", "ts"})`. -/
def write_behind_enqueue (s : Store α) (now : ℚ) (topic : String) (payload : α) :
    Store α :=
  rpush s now QUEUE_KEY ⟨topic, payload, now⟩

/-- The simulated origin `_USERS`: an insertion-ordered dict from uid to
record (Python dicts preserve insertion order, which the widget computation
iterates over). -/
abbrev Origin := List (String × UserRec)

/-- Source `db_get_user_async(uid)`: `_USERS.get(uid)`. -/
def db_get_user_async (o : Origin) (uid : String) : Option UserRec :=
  o.lookup uid

/-- Source `db_update_user(user)`: `_USERS[user["id"]] = user` — replace in
place if the key exists, else append (Python dict assignment). -/
def db_update_user (o : Origin) (u : UserRec) : Origin :=
  if (o.lookup u.id).isSome then
    o.map (fun p => if p.1 = u.id then (u.id, u) else p)
  else o ++ [(u.id, u)]

/-- Combined service state: the key-value store plus the origin dict. -/
structure Sys where
  store : Store Val
  origin : Origin

/-- Request body `UpdateUser`: optional `name` and `title` (validated to
length 1..100 when present, so never empty strings) and a `mode` restricted by
the validator to `"write-through"` or `"write-behind"`. -/
structure UpdateUser where
  name : Option String
  title : Option String
  mode : String
deriving DecidableEq, Repr

/-- Python truthiness of an optional string: `None` and `""` are falsy. -/
def pyStrOpt (o : Option String) : Option String :=
  match o with
  | some s => if s = "" then none else some s
  | none => none

/-- The read-modify step of `update_user`: when the origin has no record
(`if not cur:`), build a default from the patch
(`{"id": uid, "name": patch.name or "User uid", "title": patch.title or "Member"}`);
otherwise overwrite the fields the patch supplies (`if patch.name: ...`). -/
def mergePatch (uid : String) (cur0 : Option UserRec) (patch : UpdateUser) : UserRec :=
  match cur0 with
  | none => ⟨uid, (pyStrOpt patch.name).getD ("User " ++ uid),
      (pyStrOpt patch.title).getD "Member"⟩
  | some cur =>
    { cur with
      name := (pyStrOpt patch.name).getD cur.name,
      title := (pyStrOpt patch.title).getD cur.title }

/-- The pipelined cache-write phase shared by both update modes of the source
endpoint `update_user`: `setex(kv("user",uid), jittered 900, cur)`, the derived
who-to-follow widget `setex(kv("widget","wtf",uid), jittered 300,
{"suggestions": up to three other origin uids})`, `sadd(dep, k, widget_key)`
and `expire(dep, 1200)`.  `u1`, `u2` are the two jitter draws. -/
def update_user_cache_write (store1 : Store Val) (origin1 : Origin) (now : ℚ)
    (uid : String) (cur : UserRec) (u1 u2 : ℚ) : Store Val :=
  let k := kv ["user", uid]
  let dep := kv ["dep", "user", uid]
  let widgetKey := kv ["widget", "wtf", uid]
  let widget : Val := .widget (((origin1.map Prod.fst).filter (fun x => x ≠ uid)).take 3)
  let store2 := setex store1 now k (_with_jitter 900 u1) (.json (.user cur))
  let store3 := setex store2 now widgetKey (_with_jitter 300 u2) (.json widget)
  let store4 := sadd store3 now dep [k, widgetKey]
  expireOp store4 now dep 1200

/-- Source endpoint `update_user(uid, patch, background)`:
merge the patch against the current origin record; in `write-behind` mode
enqueue `{"topic": "user_update", "payload": cur, "ts": now}` (the origin is
untouched), otherwise write the merged record to the origin synchronously;
then run the shared cache-write phase.  Returns the merged record. -/
def update_user (sys : Sys) (now : ℚ) (uid : String) (patch : UpdateUser)
    (u1 u2 : ℚ) : Sys × UserRec :=
  let cur := mergePatch uid (db_get_user_async sys.origin uid) patch
  let (origin1, store1) :=
    if patch.mode = "write-behind" then
      (sys.origin, write_behind_enqueue sys.store now "user_update" (Val.user cur))
    else
      (db_update_user sys.origin cur, sys.store)
  (⟨update_user_cache_write store1 origin1 now uid cur u1 u2, origin1⟩, cur)

/-- One iteration of the source `write_behind_worker` loop when the queue is
non-empty: `BLPOP` the head message and, for topic `"user_update"`, apply
`db_update_user(msg["payload"])`.  (The only enqueued payloads are user
records; other `Val` payloads leave the origin untouched.) -/
def write_behind_worker_step (sys : Sys) (now : ℚ) : Sys :=
  match blpop sys.store now QUEUE_KEY with
  | none => sys
  | some (item, st2) =>
    if item.topic = "user_update" then
      match item.payload with
      | .user urec => ⟨st2, db_update_user sys.origin urec⟩
      | _ => ⟨st2, sys.origin⟩
    else ⟨st2, sys.origin⟩

/-- Validation on `get_user`: `ttl` comes from
`Query(default=900, ge=1, le=86400)` plus the explicit
`if ttl < 1 or ttl > 86400: raise HTTPException(400)`. -/
def get_user_ttl_ok (ttl : ℤ) : Bool := decide (1 ≤ ttl) && decide (ttl ≤ 86400)

/-- Associative-list write with Python `dict.__setitem__` semantics
(used to model `hits.update(...)`): replace in place or append. -/
def assocSet (h : List (String × β)) (k : String) (v : β) : List (String × β) :=
  if (h.lookup k).isSome then h.map (fun p => if p.1 = k then (k, v) else p)
  else h ++ [(k, v)]

/-- Python `dict.update`: fold the updates left to right. -/
def dictUpdate (h : List (String × β)) (upds : List (String × β)) : List (String × β) :=
  upds.foldl (fun acc p => assocSet acc p.1 p.2) h

/-- Output of `bulk_users`: the returned id→value dict, the store afterwards,
and the list of uids fetched from the origin (`db_get_user_async` calls). -/
structure BulkOut where
  hits : List (String × JVal Val)
  store : Store Val
  fetches : List String

/-- Classification step of `bulk_users` for one id: a missing key, or a blob
whose `json.loads` raises (the caught `JSONDecodeError` branch — in particular
the `"__nil__"` sentinel), goes to `misses`; a decoded SWR wrapper contributes
`data["value"]`, any other decoded value contributes itself. -/
def bulkStep (s : Store Val) (now : ℚ)
    (acc : List (String × JVal Val) × List String) (uid : String) :
    List (String × JVal Val) × List String :=
  match liveGet s now (kv ["user", uid]) with
  | none => (acc.1, acc.2 ++ [uid])
  | some b =>
    match decodeBlob b with
    | none => (acc.1, acc.2 ++ [uid])
    | some (.swrWrapped v _) => (acc.1 ++ [(uid, .plain v)], acc.2)
    | some jv => (acc.1 ++ [(uid, jv)], acc.2)

/-- Source endpoint `bulk_users(ids, ttl)`: `MGET` every `kv("user", uid)`,
partition into hits and misses (`bulkStep`); fetch each miss from the origin
individually; pipeline a write per miss — the `"__nil__"` sentinel with
`NEG_TTL` for absent records, the jittered-ttl JSON record otherwise; and merge
the fetched non-absent records into the hits dict.  `draw` supplies the jitter
draw per uid. -/
def bulk_users (s : Store Val) (now : ℚ) (origin : Origin) (uids : List String)
    (ttl : ℤ) (draw : String → ℚ) : BulkOut :=
  let cls := uids.foldl (bulkStep s now) ([], [])
  let hits0 := cls.1
  let misses := cls.2
  let fetched := misses.map (fun uid => (uid, db_get_user_async origin uid))
  let store1 := fetched.foldl (fun st p =>
    match p.2 with
    | none => setex st now (kv ["user", p.1]) NEG_TTL .nil
    | some urec => setex st now (kv ["user", p.1]) (_with_jitter ttl (draw p.1)) (.json (.user urec))) s
  let hits1 := dictUpdate hits0
    (fetched.filterMap (fun p => p.2.map (fun urec => (p.1, JVal.plain (Val.user urec)))))
  ⟨hits1, store1, misses⟩

/-! Helper lemmas about the store model and the key grammar. -/

theorem Store.upd_self (s : Store α) (k : String) (e : Entry α) :
    (s.upd k e) k = some e := by
  simp [Store.upd]

theorem Store.upd_ne (s : Store α) {k k2 : String} (e : Entry α) (h : k2 ≠ k) :
    (s.upd k e) k2 = s k2 := by
  simp [Store.upd, h]

theorem Store.del_self (s : Store α) (k : String) : (s.del k) k = none := by
  simp [Store.del]

theorem Store.del_ne (s : Store α) {k k2 : String} (h : k2 ≠ k) :
    (s.del k) k2 = s k2 := by
  simp [Store.del, h]

theorem setex_lookup_self (s : Store α) (now : ℚ) (k : String) (ttl : ℤ) (b : Blob α) :
    (setex s now k ttl b) k = some ⟨b, some (now + (ttl : ℚ))⟩ := by
  simp [setex, Store.upd_self]

theorem setex_lookup_ne (s : Store α) (now : ℚ) {k k2 : String} (ttl : ℤ) (b : Blob α)
    (h : k2 ≠ k) : (setex s now k ttl b) k2 = s k2 := by
  simp [setex, Store.upd_ne _ _ h]

theorem liveGet_setex_self (s : Store α) {now t : ℚ} (k : String) {ttl : ℤ} (b : Blob α)
    (h : t < now + (ttl : ℚ)) : liveGet (setex s now k ttl b) t k = some b := by
  simp [liveGet, setex_lookup_self, Entry.live, h]

theorem liveGet_setex_ne (s : Store α) (now t : ℚ) {k k2 : String} (ttl : ℤ) (b : Blob α)
    (h : k2 ≠ k) : liveGet (setex s now k ttl b) t k2 = liveGet s t k2 := by
  simp [liveGet, setex_lookup_ne _ _ _ _ h]

theorem liveGet_del_ne (s : Store α) (t : ℚ) {k k2 : String} (h : k2 ≠ k) :
    liveGet (s.del k) t k2 = liveGet s t k2 := by
  simp [liveGet, Store.del_ne _ h]

theorem sadd_lookup_ne (s : Store α) (now : ℚ) {k k2 : String} (ms : List String)
    (h : k2 ≠ k) : (sadd s now k ms) k2 = s k2 := by
  unfold sadd
  cases hs : s k with
  | none => simp [Store.upd_ne _ _ h]
  | some e =>
    cases hl : e.live now with
    | false => simp [hl, Store.upd_ne _ _ h]
    | true => cases hb : e.blob <;> simp [hl, hb, Store.upd_ne _ _ h]

theorem expireOp_lookup_ne (s : Store α) (now : ℚ) {k k2 : String} (w : ℤ)
    (h : k2 ≠ k) : (expireOp s now k w) k2 = s k2 := by
  unfold expireOp
  cases hs : s k with
  | none => rfl
  | some e =>
    cases hl : e.live now with
    | false => simp [hl]
    | true => simp [hl, Store.upd_ne _ _ h]

theorem rpush_lookup_ne (s : Store α) (now : ℚ) {k k2 : String} (item : WBItem α)
    (h : k2 ≠ k) : (rpush s now k item) k2 = s k2 := by
  unfold rpush
  cases hs : s k with
  | none => simp [Store.upd_ne _ _ h]
  | some e =>
    cases hl : e.live now with
    | false => simp [hl, Store.upd_ne _ _ h]
    | true => cases hb : e.blob <;> simp [hl, hb, Store.upd_ne _ _ h]

theorem sadd_spec (s : Store α) (now : ℚ) (k : String) (ms : List String) :
    ∃ ms2 eo, (sadd s now k ms) k = some ⟨.sset ms2, eo⟩ ∧
      (∀ m ∈ ms, m ∈ ms2) ∧ (⟨.sset ms2, eo⟩ : Entry α).live now = true := by
  unfold sadd
  cases hs : s k with
  | none =>
    exact ⟨ms.dedup, none, by simp [Store.upd_self],
      fun m hm => List.mem_dedup.2 hm, rfl⟩
  | some e =>
    cases hl : e.live now with
    | false =>
      exact ⟨ms.dedup, none, by simp [hl, Store.upd_self],
        fun m hm => List.mem_dedup.2 hm, rfl⟩
    | true =>
      cases hb : e.blob
      case sset cur =>
        refine ⟨cur ++ ms.filter (fun m => decide (m ∉ cur)), e.expireAt,
          by simp [hl, hb, Store.upd_self], fun m hm => ?_, ?_⟩
        · by_cases hmc : m ∈ cur
          · exact List.mem_append_left _ hmc
          · exact List.mem_append_right _ (List.mem_filter.2 ⟨hm, by simp [hmc]⟩)
        · show Entry.live ⟨.sset _, e.expireAt⟩ now = true
          rw [← hl]
          simp [Entry.live]
      all_goals
        exact ⟨ms.dedup, none, by simp [hl, hb, Store.upd_self],
          fun m hm => List.mem_dedup.2 hm, rfl⟩

theorem expireOp_live_self (s : Store α) (now : ℚ) (k : String) (w : ℤ) (e : Entry α)
    (h : s k = some e) (hl : e.live now = true) :
    (expireOp s now k w) k = some ⟨e.blob, some (now + (w : ℚ))⟩ := by
  unfold expireOp
  rw [h]
  simp [hl, Store.upd_self]

/-! Key-grammar facts: the versioned keys the endpoints build are pairwise
distinct, and distinct from the lock, rebuild and queue namespaces. -/

theorem kv_user_eq (uid : String) : kv ["user", uid] = "v1:user:" ++ uid := rfl

theorem kv_dep_eq (uid : String) : kv ["dep", "user", uid] = "v1:dep:user:" ++ uid := rfl

theorem kv_widget_eq (uid : String) :
    kv ["widget", "wtf", uid] = "v1:widget:wtf:" ++ uid := rfl

theorem append_ne_append_of_length {a b : String} (u : String)
    (h : a.length ≠ b.length) : a ++ u ≠ b ++ u := by
  intro he
  have h2 := congrArg String.length he
  simp only [String.length_append] at h2
  omega

theorem prefix_ne_of_length {a : String} (u : String) (h : a.length ≠ 0) :
    a ++ u ≠ u := by
  intro he
  have h2 := congrArg String.length he
  simp only [String.length_append] at h2
  omega

theorem kv_user_ne_dep (uid : String) : kv ["user", uid] ≠ kv ["dep", "user", uid] := by
  rw [kv_user_eq, kv_dep_eq]
  exact append_ne_append_of_length _ (by decide)

theorem kv_user_ne_widget (uid : String) :
    kv ["user", uid] ≠ kv ["widget", "wtf", uid] := by
  rw [kv_user_eq, kv_widget_eq]
  exact append_ne_append_of_length _ (by decide)

theorem kv_widget_ne_dep (uid : String) :
    kv ["widget", "wtf", uid] ≠ kv ["dep", "user", uid] := by
  rw [kv_widget_eq, kv_dep_eq]
  exact append_ne_append_of_length _ (by decide)

theorem queue_ne_kv_user (uid : String) : QUEUE_KEY ≠ kv ["user", uid] := by
  rw [kv_user_eq]
  intro h
  have h2 : "wb:queue".data = ("v1:user:" ++ uid).data := congrArg String.data h
  rw [String.data_append] at h2
  rw [show "wb:queue".data = ['w', 'b', ':', 'q', 'u', 'e', 'u', 'e'] from rfl,
    show "v1:user:".data = ['v', '1', ':', 'u', 's', 'e', 'r', ':'] from rfl] at h2
  simp only [List.cons_append] at h2
  injection h2 with hc _
  exact absurd hc (by decide)

theorem queue_ne_kv_dep (uid : String) : QUEUE_KEY ≠ kv ["dep", "user", uid] := by
  rw [kv_dep_eq]
  intro h
  have h2 := congrArg String.length h
  rw [String.length_append] at h2
  rw [show (QUEUE_KEY.length) = 8 from rfl, show "v1:dep:user:".length = 12 from rfl] at h2
  omega

theorem queue_ne_kv_widget (uid : String) : QUEUE_KEY ≠ kv ["widget", "wtf", uid] := by
  rw [kv_widget_eq]
  intro h
  have h2 := congrArg String.length h
  rw [String.length_append] at h2
  rw [show (QUEUE_KEY.length) = 8 from rfl, show "v1:widget:wtf:".length = 14 from rfl] at h2
  omega

/-- Bridge between `Rat.floor` (used by the executable `pyInt`) and the
`Int.floor` notation of the ambient order theory: they are definitionally equal
for `ℚ`. -/
theorem rat_floor_eq_int_floor (q : ℚ) : q.floor = ⌊q⌋ := rfl

theorem pyInt_of_nonneg {q : ℚ} (h : 0 ≤ q) : pyInt q = ⌊q⌋ := by
  simp [pyInt, h, rat_floor_eq_int_floor]

theorem lookup_map_replace (o : Origin) (u : UserRec) (h : (o.lookup u.id).isSome) :
    ((o.map (fun p => if p.1 = u.id then (u.id, u) else p)).lookup u.id) = some u := by
  induction o with
  | nil => simp [List.lookup] at h
  | cons hd tl ih =>
    obtain ⟨k, v⟩ := hd
    by_cases hh : k = u.id
    · subst hh
      rw [List.map_cons]
      rw [if_pos (show ((u.id, v) : String × UserRec).1 = u.id from rfl)]
      simp [List.lookup]
    · have h2 : (tl.lookup u.id).isSome := by
        simp only [List.lookup] at h
        rw [show (u.id == k) = false by simp [Ne.symm hh]] at h
        exact h
      rw [List.map_cons]
      rw [if_neg (show ¬ ((k, v) : String × UserRec).1 = u.id from hh)]
      simp only [List.lookup]
      rw [show (u.id == k) = false by simp [Ne.symm hh]]
      exact ih h2

theorem lookup_append_absent (o : Origin) (u : UserRec) (h : o.lookup u.id = none) :
    ((o ++ [(u.id, u)]).lookup u.id) = some u := by
  induction o with
  | nil => simp [List.lookup]
  | cons hd tl ih =>
    obtain ⟨k, v⟩ := hd
    simp only [List.lookup, List.cons_append] at h ⊢
    cases hbeq : (u.id == k) with
    | true =>
      rw [hbeq] at h
      exact Option.noConfusion h
    | false =>
      rw [hbeq] at h
      exact ih h

/-- The origin record written by `db_update_user(user)` is afterwards returned
by `_USERS.get(user["id"])`. -/
theorem lookup_db_update_user (o : Origin) (u : UserRec) :
    db_get_user_async (db_update_user o u) u.id = some u := by
  unfold db_get_user_async db_update_user
  cases h : o.lookup u.id with
  | some r =>
    rw [if_pos (by simp [h])]
    exact lookup_map_replace o u (by simp [h])
  | none =>
    rw [if_neg (by simp [h])]
    exact lookup_append_absent o u h

/-- Well-formedness of `_USERS`: every record is stored under its own id. -/
def OriginWF (o : Origin) : Prop := ∀ p ∈ o, p.2.id = p.1

theorem lookup_id_of_wf {o : Origin} (hWF : OriginWF o) {k : String} {r : UserRec}
    (h : o.lookup k = some r) : r.id = k := by
  induction o with
  | nil => simp [List.lookup] at h
  | cons hd tl ih =>
    obtain ⟨k2, v⟩ := hd
    simp only [List.lookup] at h
    cases hbeq : (k == k2) with
    | true =>
      rw [hbeq] at h
      have hv : v = r := by simpa using h
      have hk : k = k2 := by simpa using hbeq
      subst hv hk
      exact hWF (k, v) (by simp)
    | false =>
      rw [hbeq] at h
      exact ih (fun p hp => hWF p (List.mem_cons_of_mem _ hp)) h

/-! Claim C10: jitter arithmetic. -/

/-- Helper evaluation: the jitter of `ttl = 1` at the draw `u = -0.15`
(the lowest admissible draw at the default jitter fraction) is `int(0.85) = 0`. -/
theorem jitter_one_low : _with_jitter 1 (-(15 / 100)) = 0 := by
  unfold _with_jitter pyInt
  rw [if_neg (by decide)]
  rw [if_pos (by norm_num)]
  rw [rat_floor_eq_int_floor]
  rw [show (((1:ℤ):ℚ) + -(15 / 100)) = 85 / 100 by norm_num]
  rw [Int.floor_eq_zero_iff.2 (by constructor <;> norm_num)]

/-- Range of the jittered TTL: for a positive ttl and a draw
`u ∈ [-ttl·J, +ttl·J]`, `int(ttl + u)` lies in
`[floor(ttl·(1-J)), floor(ttl·(1+J))]`. -/
theorem with_jitter_bounds (ttl : ℤ) (u : ℚ) (hpos : 0 < ttl)
    (hlo : -((ttl : ℚ) * JITTER_RANGE) ≤ u) (hhi : u ≤ (ttl : ℚ) * JITTER_RANGE) :
    ((ttl : ℚ) * (1 - JITTER_RANGE)).floor ≤ _with_jitter ttl u ∧
      _with_jitter ttl u ≤ ((ttl : ℚ) * (1 + JITTER_RANGE)).floor := by
  have hql : (0 : ℚ) < (ttl : ℚ) := by exact_mod_cast hpos
  have hJ : JITTER_RANGE = 15 / 100 := rfl
  have h1 : (ttl : ℚ) * (1 - JITTER_RANGE) ≤ (ttl : ℚ) + u := by
    rw [hJ] at hlo ⊢
    nlinarith
  have h2 : (ttl : ℚ) + u ≤ (ttl : ℚ) * (1 + JITTER_RANGE) := by
    rw [hJ] at hhi ⊢
    nlinarith
  have hnn : (0 : ℚ) ≤ (ttl : ℚ) + u := by
    have : (0 : ℚ) ≤ (ttl : ℚ) * (1 - JITTER_RANGE) := by
      rw [hJ]
      nlinarith
    linarith
  unfold _with_jitter
  rw [if_neg (by omega)]
  rw [pyInt_of_nonneg hnn, rat_floor_eq_int_floor, rat_floor_eq_int_floor]
  exact ⟨Int.floor_mono h1, Int.floor_mono h2⟩

/-- For the default positive TTL of 900s, every admissible jitter draw leaves
a jittered TTL of at least `floor(900·0.85) = 765` seconds. -/
theorem with_jitter_900_lower (u : ℚ)
    (hlo : -((900 : ℚ) * JITTER_RANGE) ≤ u) (hhi : u ≤ (900 : ℚ) * JITTER_RANGE) :
    765 ≤ _with_jitter 900 u := by
  have hb := (with_jitter_bounds 900 u (by decide) (by exact_mod_cast hlo)
    (by exact_mod_cast hhi)).1
  have hfloor : (((900 : ℤ) : ℚ) * (1 - JITTER_RANGE)).floor = 765 := by
    rw [rat_floor_eq_int_floor]
    rw [show (((900 : ℤ) : ℚ) * (1 - JITTER_RANGE)) = 765 by
      rw [show JITTER_RANGE = 15 / 100 from rfl]
      norm_num]
    norm_num
  rw [hfloor] at hb
  exact hb

/-- C10: for every positive ttl, the jittered TTL `int(ttl + u)` with the
uniform draw `u ∈ [-ttl·J, +ttl·J]` lies in
`[floor(ttl·(1-J)), floor(ttl·(1+J))]`; in particular at `ttl = 1` with the
default `J = 0.15` the draw `u = -0.15` yields `0`, even though `ttl = 1`
passes the read endpoint's validation and a zero TTL fails the `SETEX`
positivity requirement. -/
theorem C10_jitter_range (ttl : ℤ) (u : ℚ) (hpos : 0 < ttl)
    (hlo : -((ttl : ℚ) * JITTER_RANGE) ≤ u) (hhi : u ≤ (ttl : ℚ) * JITTER_RANGE) :
    (((ttl : ℚ) * (1 - JITTER_RANGE)).floor ≤ _with_jitter ttl u ∧
      _with_jitter ttl u ≤ ((ttl : ℚ) * (1 + JITTER_RANGE)).floor) ∧
    _with_jitter 1 (-(15 / 100)) = 0 ∧
    get_user_ttl_ok 1 = true ∧
    setex_ttl_ok (_with_jitter 1 (-(15 / 100))) = false :=
  ⟨with_jitter_bounds ttl u hpos hlo hhi, jitter_one_low, by decide,
    by rw [jitter_one_low]; decide⟩

/-- C10 witness: the theorem instantiated at `ttl = 1`, `u = -0.15`. -/
theorem C10_jitter_range_witness :
    ((((1 : ℤ) : ℚ) * (1 - JITTER_RANGE)).floor ≤ _with_jitter 1 (-(15 / 100)) ∧
      _with_jitter 1 (-(15 / 100)) ≤ (((1 : ℤ) : ℚ) * (1 + JITTER_RANGE)).floor) ∧
    _with_jitter 1 (-(15 / 100)) = 0 ∧
    get_user_ttl_ok 1 = true ∧
    setex_ttl_ok (_with_jitter 1 (-(15 / 100))) = false :=
  C10_jitter_range 1 (-(15 / 100)) (by decide)
    (by rw [show JITTER_RANGE = 15 / 100 from rfl]; norm_num)
    (by rw [show JITTER_RANGE = 15 / 100 from rfl]; norm_num)

/-! Claims C1, C2: the circuit breaker. -/

/-- A breaker that has just opened: five consecutive failures against a
threshold of five (the constructor defaults), last failure at time 0. -/
def openBreaker : CircuitBreaker := ⟨5, 5, 60, 0, true⟩

/-- The user record `"1"` of the simulated origin. -/
def adaRec : UserRec := ⟨"1", "Ada", "Engineer"⟩

/-- A store holding Ada's record under her versioned user key (no expiry). -/
def adaStore : Store Val := Store.upd emptyStore "v1:user:1" ⟨.json (.user adaRec), none⟩

/-- Claim C1 as stated: every store operation performed by the cache
strategies is wrapped by the circuit breaker, so once the breaker is open no
store call is attempted (here instantiated to the cache-aside strategy, whose
reads and writes the claim covers). -/
def C1_claim : Prop :=
  ∀ (cb : CircuitBreaker) (s : Store Val) (now : ℚ) (key : String) (ttl : ℤ)
    (loader : Option Val) (u : ℚ), cb.is_open = true →
    (cache_aside_json s now key ttl loader u).storeOps = 0

/-- C1 counterexample: the strategies call the `r_r`/`r_w` clients directly and
never route through `safe_redis_operation`, so with the breaker open a
cache-aside read still attempts the store (one GET), returns the cached value,
and does not fall back to the origin loader. -/
theorem C1_counterexample :
    ¬ C1_claim ∧
    openBreaker.is_open = true ∧
    (cache_aside_json adaStore 0 "v1:user:1" 900 none 0).storeOps = 1 ∧
    (cache_aside_json adaStore 0 "v1:user:1" 900 none 0).result
      = .ok (some (.plain (.user adaRec))) ∧
    (cache_aside_json adaStore 0 "v1:user:1" 900 none 0).loaderCalls = 0 := by
  refine ⟨fun h => ?_, rfl, rfl, rfl, rfl⟩
  have h2 := h openBreaker adaStore 0 "v1:user:1" 900 none 0 rfl
  rw [show (cache_aside_json adaStore 0 "v1:user:1" 900 none 0).storeOps = 1 from rfl] at h2
  exact one_ne_zero h2

/-- C1 amended: `safe_redis_operation` itself does short-circuit to the given
fallback without attempting the operation while the breaker is open and the
recovery timeout has not elapsed — but the cache strategies do not use it:
cache-aside always attempts at least one store operation whatever the breaker
state. -/
theorem C1_amended (cb : CircuitBreaker) (now : ℚ) (outcome : OpOutcome β)
    (fb : Option β) (hopen : cb.is_open = true)
    (hwithin : now - cb.last_failure_time ≤ cb.recovery_timeout) :
    (safe_redis_operation cb now outcome fb).attempted = false ∧
    (safe_redis_operation cb now outcome fb).result = fb ∧
    ∀ (s : Store Val) (key : String) (ttl : ℤ) (loader : Option Val) (u : ℚ),
      1 ≤ (cache_aside_json s now key ttl loader u).storeOps := by
  have hcan : cb.can_attempt now = (false, cb) := by
    unfold CircuitBreaker.can_attempt
    rw [hopen]
    simp [not_lt.2 hwithin]
  refine ⟨?_, ?_, ?_⟩
  · unfold safe_redis_operation
    rw [hcan]
  · unfold safe_redis_operation
    rw [hcan]
  · intro s key ttl loader u
    unfold cache_aside_json
    cases liveGet s now key with
    | some b => cases hd : decodeBlob b <;> simp [hd]
    | none => cases loader <;> simp

/-- C1 amended, witnessed at the freshly opened breaker half-way through its
recovery timeout. -/
theorem C1_amended_witness :
    (safe_redis_operation openBreaker 30 (.ok true) none).attempted = false ∧
    (safe_redis_operation openBreaker 30 (.ok true) none).result = none ∧
    ∀ (s : Store Val) (key : String) (ttl : ℤ) (loader : Option Val) (u : ℚ),
      1 ≤ (cache_aside_json s 30 key ttl loader u).storeOps :=
  C1_amended openBreaker 30 (.ok true) none rfl (by norm_num [openBreaker])

/-- Claim C2 as stated: once `recovery_timeout` has elapsed since the last
failure, the next call is attempted, and if that attempt fails the breaker
immediately reopens. -/
def C2_claim : Prop :=
  ∀ (cb : CircuitBreaker) (now : ℚ), cb.is_open = true →
    cb.recovery_timeout < now - cb.last_failure_time →
    (cb.can_attempt now).1 = true ∧
    (((cb.can_attempt now).2).record_failure now).is_open = true

/-- C2 counterexample: `can_attempt` zeroes `failure_count` when it half-opens,
so a failure on the recovery attempt leaves `failure_count = 1 < threshold`
and the breaker stays closed — it does not immediately reopen. -/
theorem C2_counterexample :
    ¬ C2_claim ∧
    (openBreaker.can_attempt 61).1 = true ∧
    (((openBreaker.can_attempt 61).2).record_failure 61).is_open = false ∧
    (((openBreaker.can_attempt 61).2).record_failure 61).failure_count = 1 := by
  have hca : openBreaker.can_attempt 61 = (true, ⟨0, 5, 60, 0, false⟩) := by
    unfold CircuitBreaker.can_attempt openBreaker
    norm_num
  have hrf : ((openBreaker.can_attempt 61).2).record_failure 61
      = ⟨1, 5, 60, 61, false⟩ := by
    rw [hca]
    unfold CircuitBreaker.record_failure
    norm_num
  refine ⟨fun h => ?_, by rw [hca], by rw [hrf], by rw [hrf]⟩
  have h2 := (h openBreaker 61 rfl (by norm_num [openBreaker])).2
  rw [hrf] at h2
  exact Bool.false_ne_true h2

/-- Evaluation of `record_failure` while strictly below the threshold: the
count is bumped and the time stamped, without opening the breaker. -/
theorem record_failure_below (cb : CircuitBreaker) (now : ℚ)
    (h : ¬ cb.failure_threshold ≤ cb.failure_count + 1) :
    cb.record_failure now
      = { cb with failure_count := cb.failure_count + 1, last_failure_time := now } := by
  unfold CircuitBreaker.record_failure
  exact if_neg h

/-- C2 amended: after `recovery_timeout` elapses since the last failure the
next call is attempted, but `can_attempt` transitions the breaker to Closed
with a zeroed failure count before the attempt; a success keeps it Closed, and
a failure records one failure (stamping the new `last_failure_time`) and
reopens only if the threshold is 1 — with any threshold ≥ 2 the breaker stays
closed after the failed recovery attempt. -/
theorem C2_amended (cb : CircuitBreaker) (now : ℚ) (hopen : cb.is_open = true)
    (helapsed : cb.recovery_timeout < now - cb.last_failure_time)
    (hthr : 2 ≤ cb.failure_threshold) :
    (cb.can_attempt now).1 = true ∧
    (cb.can_attempt now).2.is_open = false ∧
    (cb.can_attempt now).2.failure_count = 0 ∧
    ((cb.can_attempt now).2.record_success).is_open = false ∧
    ((cb.can_attempt now).2.record_success).failure_count = 0 ∧
    (((cb.can_attempt now).2).record_failure now).is_open = false ∧
    (((cb.can_attempt now).2).record_failure now).failure_count = 1 ∧
    (((cb.can_attempt now).2).record_failure now).last_failure_time = now := by
  have hca : cb.can_attempt now = (true, { cb with is_open := false, failure_count := 0 }) := by
    unfold CircuitBreaker.can_attempt
    rw [hopen]
    simp [helapsed]
  rw [hca]
  refine ⟨rfl, rfl, rfl, rfl, rfl, ?_, ?_, ?_⟩ <;>
    rw [record_failure_below _ now (show ¬ (cb.failure_threshold ≤ 0 + 1) from by omega)]

/-- C2 amended, witnessed at the freshly opened breaker one second past its
recovery timeout. -/
theorem C2_amended_witness :
    (openBreaker.can_attempt 61).1 = true ∧
    (openBreaker.can_attempt 61).2.is_open = false ∧
    (openBreaker.can_attempt 61).2.failure_count = 0 ∧
    ((openBreaker.can_attempt 61).2.record_success).is_open = false ∧
    ((openBreaker.can_attempt 61).2.record_success).failure_count = 0 ∧
    (((openBreaker.can_attempt 61).2).record_failure 61).is_open = false ∧
    (((openBreaker.can_attempt 61).2).record_failure 61).failure_count = 1 ∧
    (((openBreaker.can_attempt 61).2).record_failure 61).last_failure_time = 61 :=
  C2_amended openBreaker 61 rfl (by norm_num [openBreaker]) (by norm_num [openBreaker])

/-! Claim C3: the singleflight loser path. -/

/-- C3: whenever a singleflight read misses and the set-if-absent acquisition
of the per-key build lock fails (the lock key is live), the caller never
invokes the loader; it sleeps the wait time, re-reads the key exactly once,
and returns the decoded value found there, or a not-found result if the key is
still absent.  The store seen after the sleep (`s2`) is arbitrary — other
requests may have run meanwhile. -/
theorem C3_singleflight_loser (s : Store α) (now : ℚ) (key : String) (ttl : ℤ)
    (loader : Option α) (u : ℚ) (waitMs : ℚ) (s2 : Store α)
    (hmiss : liveGet s now key = none)
    (hlock : (liveGet s now ("lock:" ++ key)).isSome = true) :
    (get_with_singleflight_json s now key ttl loader u waitMs s2).loaderCalls = 0 ∧
    (get_with_singleflight_json s now key ttl loader u waitMs s2).sleptMs = waitMs ∧
    (get_with_singleflight_json s now key ttl loader u waitMs s2).rereads = 1 ∧
    (liveGet s2 (now + waitMs / 1000) key = none →
      (get_with_singleflight_json s now key ttl loader u waitMs s2).result = .ok none) ∧
    (∀ b jv, liveGet s2 (now + waitMs / 1000) key = some b → decodeBlob b = some jv →
      (get_with_singleflight_json s now key ttl loader u waitMs s2).result
        = .ok (some jv)) := by
  have hsetnx : setnx s now ("lock:" ++ key) REBUILD_LOCK_TTL (.mark "1") = (false, s) := by
    unfold setnx
    obtain ⟨b, hb⟩ := Option.isSome_iff_exists.1 hlock
    rw [hb]
  have heval : get_with_singleflight_json s now key ttl loader u waitMs s2
      = sfLoserRead s2 (now + waitMs / 1000) key waitMs := by
    unfold get_with_singleflight_json
    simp only [hmiss, hsetnx]
  rw [heval]
  unfold sfLoserRead
  cases hre : liveGet s2 (now + waitMs / 1000) key with
  | none =>
    exact ⟨rfl, rfl, rfl, fun _ => rfl, fun b jv hb _ => Option.noConfusion hb⟩
  | some b =>
    dsimp only
    cases hd : decodeBlob b with
    | none =>
      refine ⟨rfl, rfl, rfl, fun h => Option.noConfusion h, fun b2 jv hb2 hjv => ?_⟩
      injection hb2 with he
      subst he
      rw [hd] at hjv
      exact Option.noConfusion hjv
    | some jv0 =>
      refine ⟨rfl, rfl, rfl, fun h => Option.noConfusion h, fun b2 jv hb2 hjv => ?_⟩
      injection hb2 with he
      subst he
      rw [hd] at hjv
      injection hjv with he2
      rw [he2]

/-- A store whose only key is a live build lock for `"v1:user:9"`. -/
def lockedStore : Store Val := Store.upd emptyStore "lock:v1:user:9" ⟨.mark "1", none⟩

/-- A store holding Ada's record under `"v1:user:9"`, as observed after the
singleflight sleep. -/
def rebuiltStore : Store Val := Store.upd emptyStore "v1:user:9" ⟨.json (.user adaRec), none⟩

/-- C3 witness: a concrete losing caller against `lockedStore`, re-reading
`rebuiltStore`. -/
theorem C3_singleflight_loser_witness :
    (get_with_singleflight_json lockedStore 0 "v1:user:9" 900 none 0 150 rebuiltStore).loaderCalls = 0 ∧
    (get_with_singleflight_json lockedStore 0 "v1:user:9" 900 none 0 150 rebuiltStore).sleptMs = 150 ∧
    (get_with_singleflight_json lockedStore 0 "v1:user:9" 900 none 0 150 rebuiltStore).rereads = 1 ∧
    (liveGet rebuiltStore (0 + 150 / 1000) "v1:user:9" = none →
      (get_with_singleflight_json lockedStore 0 "v1:user:9" 900 none 0 150 rebuiltStore).result
        = .ok none) ∧
    (∀ b jv, liveGet rebuiltStore (0 + 150 / 1000) "v1:user:9" = some b →
      decodeBlob b = some jv →
      (get_with_singleflight_json lockedStore 0 "v1:user:9" 900 none 0 150 rebuiltStore).result
        = .ok (some jv)) :=
  C3_singleflight_loser lockedStore 0 "v1:user:9" 900 none 0 150 rebuiltStore
    (by decide) (by decide)

/-! Claim C7: negative caching. -/

/-- Evaluation of `get_with_negative_cache_json` on a hit holding the
`"__nil__"` sentinel: absent is returned without invoking the loader. -/
theorem negcache_hit_nil (s : Store α) (now : ℚ) (key : String) (ttl : ℤ)
    (loader : Option α) (u : ℚ) (h : liveGet s now key = some .nil) :
    get_with_negative_cache_json s now key ttl loader u = ⟨.ok none, s, 0⟩ := by
  unfold get_with_negative_cache_json
  rw [h]

/-- Evaluation of `get_with_negative_cache_json` on a miss: the loader runs
once; absent stores the sentinel with `NEG_TTL`, a value stores normally. -/
theorem negcache_miss (s : Store α) (now : ℚ) (key : String) (ttl : ℤ)
    (loader : Option α) (u : ℚ) (h : liveGet s now key = none) :
    get_with_negative_cache_json s now key ttl loader u =
      match loader with
      | none => ⟨.ok none, setex s now key NEG_TTL .nil, 1⟩
      | some d => ⟨.ok (some (.plain d)), setex s now key (_with_jitter ttl u) (.json d), 1⟩ := by
  unfold get_with_negative_cache_json
  rw [h]

/-- C7: on a miss with an absent loader result, the `"__nil__"` sentinel is
stored under the key with the negative TTL (`NEG_TTL = 30`, distinct from and
shorter than any jitter of the default 900s positive TTL) and absent is
returned; every negative-cache read of the key within that negative TTL then
returns absent without invoking the loader; a non-absent loader result is
instead stored normally with the jittered positive ttl. -/
theorem C7_negative_cache (s : Store α) (now : ℚ) (key : String) (ttl : ℤ) (u : ℚ)
    (hmiss : liveGet s now key = none) :
    (get_with_negative_cache_json s now key ttl none u).result = .ok none ∧
    (get_with_negative_cache_json s now key ttl none u).loaderCalls = 1 ∧
    (get_with_negative_cache_json s now key ttl none u).store key
      = some ⟨.nil, some (now + (NEG_TTL : ℚ))⟩ ∧
    NEG_TTL = 30 ∧
    (∀ (t : ℚ) (loader2 : Option α) (u2 : ℚ), t < now + (NEG_TTL : ℚ) →
      (get_with_negative_cache_json
          (get_with_negative_cache_json s now key ttl none u).store t key ttl loader2 u2).result
        = .ok none ∧
      (get_with_negative_cache_json
          (get_with_negative_cache_json s now key ttl none u).store t key ttl loader2 u2).loaderCalls
        = 0) ∧
    (∀ d : α,
      (get_with_negative_cache_json s now key ttl (some d) u).result
        = .ok (some (.plain d)) ∧
      (get_with_negative_cache_json s now key ttl (some d) u).store key
        = some ⟨.json d, some (now + ((_with_jitter ttl u : ℤ) : ℚ))⟩) ∧
    (∀ u2 : ℚ, -((900 : ℚ) * JITTER_RANGE) ≤ u2 → u2 ≤ (900 : ℚ) * JITTER_RANGE →
      NEG_TTL < _with_jitter 900 u2) := by
  have hbase : get_with_negative_cache_json s now key ttl (none : Option α) u
      = ⟨.ok none, setex s now key NEG_TTL .nil, 1⟩ :=
    negcache_miss s now key ttl none u hmiss
  refine ⟨by rw [hbase], by rw [hbase], ?_, rfl, ?_, ?_,
    fun u2 h1 h2 => lt_of_lt_of_le (by decide) (with_jitter_900_lower u2 h1 h2)⟩
  · rw [hbase]
    exact setex_lookup_self s now key NEG_TTL .nil
  · intro t loader2 u2 ht
    have hget : liveGet (get_with_negative_cache_json s now key ttl (none : Option α) u).store
        t key = some .nil := by
      rw [hbase]
      exact liveGet_setex_self s key .nil ht
    rw [negcache_hit_nil _ t key ttl loader2 u2 hget]
    exact ⟨rfl, rfl⟩
  · intro d
    have hval : get_with_negative_cache_json s now key ttl (some d) u
        = ⟨.ok (some (.plain d)), setex s now key (_with_jitter ttl u) (.json d), 1⟩ :=
      negcache_miss s now key ttl (some d) u hmiss
    refine ⟨by rw [hval], ?_⟩
    rw [hval]
    exact setex_lookup_self s now key (_with_jitter ttl u) (.json d)

/-- C7 witness: a concrete miss for `"v1:user:9"` on the empty store. -/
theorem C7_negative_cache_witness :
    (get_with_negative_cache_json (emptyStore : Store Val) 0 "v1:user:9" 900 none 0).result
      = .ok none ∧
    (get_with_negative_cache_json (emptyStore : Store Val) 0 "v1:user:9" 900 none 0).loaderCalls = 1 ∧
    (get_with_negative_cache_json (emptyStore : Store Val) 0 "v1:user:9" 900 none 0).store "v1:user:9"
      = some ⟨.nil, some (0 + (NEG_TTL : ℚ))⟩ ∧
    NEG_TTL = 30 ∧
    (∀ (t : ℚ) (loader2 : Option Val) (u2 : ℚ), t < 0 + (NEG_TTL : ℚ) →
      (get_with_negative_cache_json
          (get_with_negative_cache_json (emptyStore : Store Val) 0 "v1:user:9" 900 none 0).store
          t "v1:user:9" 900 loader2 u2).result = .ok none ∧
      (get_with_negative_cache_json
          (get_with_negative_cache_json (emptyStore : Store Val) 0 "v1:user:9" 900 none 0).store
          t "v1:user:9" 900 loader2 u2).loaderCalls = 0) ∧
    (∀ d : Val,
      (get_with_negative_cache_json (emptyStore : Store Val) 0 "v1:user:9" 900 (some d) 0).result
        = .ok (some (.plain d)) ∧
      (get_with_negative_cache_json (emptyStore : Store Val) 0 "v1:user:9" 900 (some d) 0).store "v1:user:9"
        = some ⟨.json d, some (0 + ((_with_jitter 900 0 : ℤ) : ℚ))⟩) ∧
    (∀ u2 : ℚ, -((900 : ℚ) * JITTER_RANGE) ≤ u2 → u2 ≤ (900 : ℚ) * JITTER_RANGE →
      NEG_TTL < _with_jitter 900 u2) :=
  C7_negative_cache emptyStore 0 "v1:user:9" 900 0 (by decide)

/-! Claim C5: stale-while-revalidate. -/

/-- Evaluation of `swr_get_json` on a stale hit: the stale value is returned
with no synchronous loader call; the refresh lock is attempted with
set-if-absent, and a refresh task is scheduled exactly when it acquires. -/
theorem swr_stale_eval (s : Store α) (now : ℚ) (key : String) (ttl sg : ℤ)
    (loader : Option α) (a : α) (st : ℚ)
    (hlive : liveGet s now key = some (.jsonSWR a st)) (hstale : ¬ now < st) :
    swr_get_json s now key ttl sg loader =
      ⟨.ok (some a), (setnx s now ("swrlock:" ++ key) SWR_LOCK_TTL (.mark "1")).2, 0,
        (setnx s now ("swrlock:" ++ key) SWR_LOCK_TTL (.mark "1")).1⟩ := by
  unfold swr_get_json
  simp only [hlive, decodeBlob]
  rw [if_neg hstale]

/-- C5: a read hitting an SWR entry past its soft expiry (but still within its
stored total expiry, so the key is live) returns the stale value immediately
with no synchronous loader call; a refresh is scheduled exactly when the
per-key refresh lock is absent; while the freshly taken lock is held a second
stale read returns the same stale value and schedules no second refresh; and
the background refresh rewrites the entry as
`{"value": new, "stale_at": refresh_time + ttl}` with total expiry
`ttl + stale_grace` and deletes the refresh lock. -/
theorem C5_swr_stale (s : Store α) (now : ℚ) (key : String) (ttl sg : ℤ)
    (loader : Option α) (a : α) (st : ℚ)
    (hlive : liveGet s now key = some (.jsonSWR a st)) (hstale : st ≤ now) :
    (swr_get_json s now key ttl sg loader).result = .ok (some a) ∧
    (swr_get_json s now key ttl sg loader).loaderCalls = 0 ∧
    (swr_get_json s now key ttl sg loader).refreshScheduled
      = (liveGet s now ("swrlock:" ++ key)).isNone ∧
    (liveGet s now ("swrlock:" ++ key) = none →
      (swr_get_json s now key ttl sg loader).refreshScheduled = true ∧
      (swr_get_json (swr_get_json s now key ttl sg loader).store now key ttl sg
          loader).refreshScheduled = false ∧
      (swr_get_json (swr_get_json s now key ttl sg loader).store now key ttl sg
          loader).result = .ok (some a)) ∧
    (∀ (tR : ℚ) (d : α),
      (swr_refresh (swr_get_json s now key ttl sg loader).store tR key ttl sg (some d)) key
        = some ⟨.jsonSWR d (tR + (ttl : ℚ)), some (tR + ((ttl + sg : ℤ) : ℚ))⟩ ∧
      (swr_refresh (swr_get_json s now key ttl sg loader).store tR key ttl sg (some d))
          ("swrlock:" ++ key) = none) := by
  have hkeylock : key ≠ "swrlock:" ++ key := (prefix_ne_of_length key (by decide)).symm
  have heval := swr_stale_eval s now key ttl sg loader a st hlive (not_lt.2 hstale)
  refine ⟨by rw [heval], by rw [heval], ?_, ?_, ?_⟩
  · rw [heval]
    unfold setnx
    cases hl : liveGet s now ("swrlock:" ++ key) <;> rfl
  · intro hfree
    have hnx : setnx s now ("swrlock:" ++ key) SWR_LOCK_TTL (.mark "1")
        = (true, setex s now ("swrlock:" ++ key) SWR_LOCK_TTL (.mark "1")) := by
      unfold setnx
      rw [hfree]
    have hstore1key : liveGet (swr_get_json s now key ttl sg loader).store now key
        = some (.jsonSWR a st) := by
      rw [heval, hnx]
      rw [liveGet_setex_ne _ _ _ _ _ hkeylock]
      exact hlive
    have hlock1 : liveGet (swr_get_json s now key ttl sg loader).store now
        ("swrlock:" ++ key) = some (.mark "1") := by
      rw [heval, hnx]
      exact liveGet_setex_self _ _ _ (by
        have h5 : (0 : ℚ) < ((SWR_LOCK_TTL : ℤ) : ℚ) := by norm_num [SWR_LOCK_TTL]
        linarith)
    have heval2 := swr_stale_eval (swr_get_json s now key ttl sg loader).store now key
      ttl sg loader a st hstore1key (not_lt.2 hstale)
    have hnx2 : setnx (swr_get_json s now key ttl sg loader).store now
        ("swrlock:" ++ key) SWR_LOCK_TTL (.mark "1")
        = (false, (swr_get_json s now key ttl sg loader).store) := by
      unfold setnx
      rw [hlock1]
    refine ⟨by rw [heval, hnx], by rw [heval2, hnx2], by rw [heval2]⟩
  · intro tR d
    unfold swr_refresh
    constructor
    · rw [Store.del_ne _ hkeylock]
      exact setex_lookup_self _ tR key (ttl + sg) (.jsonSWR d (tR + (ttl : ℚ)))
    · exact Store.del_self _ _

/-- A store holding a never-expiring but stale SWR wrapper for Ada under her
user key (soft expiry at time 2). -/
def staleStore : Store Val :=
  Store.upd emptyStore "v1:user:1" ⟨.jsonSWR (.user adaRec) 2, none⟩

/-- C5 witness: a concrete stale read of `staleStore` at time 5. -/
theorem C5_swr_stale_witness :
    (swr_get_json staleStore 5 "v1:user:1" 900 30 none).result
      = .ok (some (.user adaRec)) ∧
    (swr_get_json staleStore 5 "v1:user:1" 900 30 none).loaderCalls = 0 ∧
    (swr_get_json staleStore 5 "v1:user:1" 900 30 none).refreshScheduled
      = (liveGet staleStore 5 ("swrlock:" ++ "v1:user:1")).isNone ∧
    (liveGet staleStore 5 ("swrlock:" ++ "v1:user:1") = none →
      (swr_get_json staleStore 5 "v1:user:1" 900 30 none).refreshScheduled = true ∧
      (swr_get_json (swr_get_json staleStore 5 "v1:user:1" 900 30 none).store 5 "v1:user:1"
          900 30 none).refreshScheduled = false ∧
      (swr_get_json (swr_get_json staleStore 5 "v1:user:1" 900 30 none).store 5 "v1:user:1"
          900 30 none).result = .ok (some (.user adaRec))) ∧
    (∀ (tR : ℚ) (d : Val),
      (swr_refresh (swr_get_json staleStore 5 "v1:user:1" 900 30 none).store tR "v1:user:1"
          900 30 (some d)) "v1:user:1"
        = some ⟨.jsonSWR d (tR + ((900 : ℤ) : ℚ)), some (tR + ((900 + 30 : ℤ) : ℚ))⟩ ∧
      (swr_refresh (swr_get_json staleStore 5 "v1:user:1" 900 30 none).store tR "v1:user:1"
          900 30 (some d)) ("swrlock:" ++ "v1:user:1") = none) :=
  C5_swr_stale staleStore 5 "v1:user:1" 900 30 none (.user adaRec) 2 rfl (by norm_num)

/-! Claim C4: the fixed-window rate limiter. -/

theorem Store.upd_upd (s : Store α) (k : String) (e1 e2 : Entry α) :
    (s.upd k e1).upd k e2 = s.upd k e2 := by
  funext k2
  unfold Store.upd
  split <;> rfl

/-- Evaluation of `token_bucket` when the identity's counter key is absent:
the counter is created at 1 and its expiry set to `now + window`. -/
theorem token_bucket_fresh (s : Store α) (t : ℚ) (key : String) (mx : ℕ) (w : ℤ)
    (h : s key = none) :
    token_bucket s t key mx w
      = (decide (1 ≤ mx), s.upd key ⟨.count 1, some (t + (w : ℚ))⟩) := by
  unfold token_bucket incr expireOp
  simp only [h, Store.upd_self]
  simp [Entry.live, Store.upd_upd]

/-- Evaluation of `token_bucket` on a live counter: `INCR` bumps the count and
the pipelined `EXPIRE` re-sets the deadline to `now + window` — the window end
moves with every request. -/
theorem token_bucket_live (s : Store α) (t : ℚ) (key : String) (mx : ℕ) (w : ℤ)
    (n : ℕ) (e : ℚ) (h : s key = some ⟨.count n, some e⟩) (hlt : t < e) :
    token_bucket s t key mx w
      = (decide (n + 1 ≤ mx), s.upd key ⟨.count (n + 1), some (t + (w : ℚ))⟩) := by
  unfold token_bucket incr expireOp
  simp [h, Entry.live, hlt, Store.upd_self, Store.upd_upd]

/-- Evaluation of `token_bucket` on an expired counter: the key counts as
absent, so the counter restarts at 1 with a fresh window. -/
theorem token_bucket_expired (s : Store α) (t : ℚ) (key : String) (mx : ℕ) (w : ℤ)
    (n : ℕ) (e : ℚ) (h : s key = some ⟨.count n, some e⟩) (hge : e ≤ t) :
    token_bucket s t key mx w
      = (decide (1 ≤ mx), s.upd key ⟨.count 1, some (t + (w : ℚ))⟩) := by
  unfold token_bucket incr expireOp
  simp [h, Entry.live, not_lt.2 hge, Store.upd_self, Store.upd_upd]

/-- The store after `n` `token_bucket` requests for `key`, all at time `t`. -/
def tbRepeat (s : Store α) (t : ℚ) (key : String) (mx : ℕ) (w : ℤ) : ℕ → Store α
  | 0 => s
  | n + 1 => (token_bucket (tbRepeat s t key mx w n) t key mx w).2

/-- Whether the `(n+1)`-th of a burst of same-instant requests is admitted. -/
def tbFlag (s : Store α) (t : ℚ) (key : String) (mx : ℕ) (w : ℤ) (n : ℕ) : Bool :=
  (token_bucket (tbRepeat s t key mx w n) t key mx w).1

theorem tbRepeat_state (t : ℚ) (key : String) (mx : ℕ) (w : ℤ) (hw : 0 < w) :
    ∀ n : ℕ, (tbRepeat (emptyStore : Store α) t key mx w (n + 1)) key
      = some ⟨.count (n + 1), some (t + (w : ℚ))⟩ := by
  have hlt : t < t + (w : ℚ) := by
    have hq : (0 : ℚ) < (w : ℚ) := by exact_mod_cast hw
    linarith
  intro n
  induction n with
  | zero =>
    show (token_bucket (tbRepeat (emptyStore : Store α) t key mx w 0) t key mx w).2 key = _
    rw [show tbRepeat (emptyStore : Store α) t key mx w 0 = emptyStore from rfl]
    rw [token_bucket_fresh _ _ _ _ _ rfl]
    exact Store.upd_self _ _ _
  | succ n ih =>
    show (token_bucket (tbRepeat (emptyStore : Store α) t key mx w (n + 1)) t key mx w).2 key = _
    rw [token_bucket_live _ _ _ _ _ (n + 1) (t + (w : ℚ)) ih hlt]
    exact Store.upd_self _ _ _

theorem tbFlag_eq (t : ℚ) (key : String) (mx : ℕ) (w : ℤ) (hw : 0 < w) (j : ℕ) :
    tbFlag (emptyStore : Store α) t key mx w j = decide (j + 1 ≤ mx) := by
  have hlt : t < t + (w : ℚ) := by
    have hq : (0 : ℚ) < (w : ℚ) := by exact_mod_cast hw
    linarith
  cases j with
  | zero =>
    unfold tbFlag
    rw [show tbRepeat (emptyStore : Store α) t key mx w 0 = emptyStore from rfl]
    rw [token_bucket_fresh _ _ _ _ _ rfl]
  | succ n =>
    unfold tbFlag
    rw [token_bucket_live _ _ _ _ _ (n + 1) (t + (w : ℚ))
      (tbRepeat_state t key mx w hw n) hlt]

/-- Claim C4 as stated: within a window exactly `max_tokens` requests succeed
and the next is rejected (true), AND re-setting the expiry on later increments
is idempotent — it does not move the window's end — so the counter resets once
the window elapses from the window's FIRST request. -/
def C4_claim : Prop :=
  ∀ (key : String) (mx : ℕ) (w : ℤ) (t0 t1 t2 : ℚ), 0 < w → 1 ≤ mx →
    t0 ≤ t1 → t1 < t0 + (w : ℚ) → t0 + (w : ℚ) ≤ t2 →
    (∃ n, (token_bucket (token_bucket (emptyStore : Store Val) t0 key mx w).2
        t1 key mx w).2 key = some ⟨.count n, some (t0 + (w : ℚ))⟩) ∧
    (token_bucket (token_bucket (token_bucket (emptyStore : Store Val) t0 key mx w).2
        t1 key mx w).2 t2 key mx w).1 = true

/-- C4 counterexample: with `max_tokens = 1`, `window = 10`, requests at
`t = 0, 5, 12`: the second request's `EXPIRE` moves the deadline from 10 to 15,
so the request at `t = 12` — past the window end of the window's first request —
still sees count 2, is bumped to 3 and rejected, not reset. -/
theorem C4_counterexample :
    ¬ C4_claim ∧
    (token_bucket (token_bucket (emptyStore : Store Val) 0 "k" 1 10).2 5 "k" 1 10).2 "k"
      = some ⟨.count 2, some 15⟩ ∧
    (token_bucket (token_bucket (token_bucket (emptyStore : Store Val) 0 "k" 1 10).2
        5 "k" 1 10).2 12 "k" 1 10).1 = false := by
  have h1 : token_bucket (emptyStore : Store Val) 0 "k" 1 10
      = (decide (1 ≤ 1), Store.upd emptyStore "k" ⟨.count 1, some (0 + ((10 : ℤ) : ℚ))⟩) :=
    token_bucket_fresh _ _ _ _ _ rfl
  have h2 : (token_bucket (emptyStore : Store Val) 0 "k" 1 10).2 "k"
      = some ⟨.count 1, some (0 + ((10 : ℤ) : ℚ))⟩ := by
    rw [h1]
    dsimp only
    exact Store.upd_self _ _ _
  have h3 : token_bucket (token_bucket (emptyStore : Store Val) 0 "k" 1 10).2 5 "k" 1 10
      = (decide (1 + 1 ≤ 1),
          Store.upd (token_bucket (emptyStore : Store Val) 0 "k" 1 10).2 "k"
            ⟨.count 2, some (5 + ((10 : ℤ) : ℚ))⟩) :=
    token_bucket_live _ _ _ _ _ 1 (0 + ((10 : ℤ) : ℚ)) h2 (by norm_num)
  have h4 : (token_bucket (token_bucket (emptyStore : Store Val) 0 "k" 1 10).2 5 "k" 1 10).2 "k"
      = some ⟨.count 2, some 15⟩ := by
    rw [h3]
    dsimp only
    rw [Store.upd_self]
    norm_num
  have h5 : (token_bucket (token_bucket (token_bucket (emptyStore : Store Val) 0 "k" 1 10).2
      5 "k" 1 10).2 12 "k" 1 10).1 = false := by
    rw [token_bucket_live _ _ _ _ _ 2 15 h4 (by norm_num)]
    rfl
  refine ⟨fun h => ?_, h4, h5⟩
  have hinst := h "k" 1 10 0 5 12 (by decide) (by decide)
    (by norm_num) (by norm_num) (by norm_num)
  rw [h5] at hinst
  exact Bool.false_ne_true hinst.2

/-- C4 amended: exactly `max_tokens` same-window requests succeed and the
`(max_tokens+1)`-th is rejected (shown for a burst at one instant from a fresh
counter); but the pipelined `EXPIRE` re-sets the deadline to `now + window` on
EVERY increment, so the window end moves with each request, and the counter
resets (restarting at 1) only once the window elapses since the LAST
increment. -/
theorem C4_amended (key : String) (mx : ℕ) (w : ℤ) (t : ℚ) (hw : 0 < w) :
    (∀ j, j < mx → tbFlag (emptyStore : Store Val) t key mx w j = true) ∧
    tbFlag (emptyStore : Store Val) t key mx w mx = false ∧
    (∀ (s : Store Val) (n : ℕ) (e tt : ℚ), s key = some ⟨.count n, some e⟩ → tt < e →
      (token_bucket s tt key mx w).2 key = some ⟨.count (n + 1), some (tt + (w : ℚ))⟩ ∧
      (token_bucket s tt key mx w).1 = decide (n + 1 ≤ mx)) ∧
    (∀ (s : Store Val) (n : ℕ) (e tt : ℚ), s key = some ⟨.count n, some e⟩ → e ≤ tt →
      (token_bucket s tt key mx w).2 key = some ⟨.count 1, some (tt + (w : ℚ))⟩ ∧
      (token_bucket s tt key mx w).1 = decide (1 ≤ mx)) := by
  refine ⟨?_, ?_, ?_, ?_⟩
  · intro j hj
    rw [tbFlag_eq t key mx w hw j]
    exact decide_eq_true (by omega)
  · rw [tbFlag_eq t key mx w hw mx]
    exact decide_eq_false (by omega)
  · intro s n e tt hkey hlt
    rw [token_bucket_live _ _ _ _ _ n e hkey hlt]
    exact ⟨Store.upd_self _ _ _, rfl⟩
  · intro s n e tt hkey hge
    rw [token_bucket_expired _ _ _ _ _ n e hkey hge]
    exact ⟨Store.upd_self _ _ _, rfl⟩

/-- C4 amended, witnessed at `max_tokens = 1`, `window = 10`, `t = 0`. -/
theorem C4_amended_witness :
    (∀ j, j < 1 → tbFlag (emptyStore : Store Val) 0 "k" 1 10 j = true) ∧
    tbFlag (emptyStore : Store Val) 0 "k" 1 10 1 = false ∧
    (∀ (s : Store Val) (n : ℕ) (e tt : ℚ), s "k" = some ⟨.count n, some e⟩ → tt < e →
      (token_bucket s tt "k" 1 10).2 "k" = some ⟨.count (n + 1), some (tt + ((10 : ℤ) : ℚ))⟩ ∧
      (token_bucket s tt "k" 1 10).1 = decide (n + 1 ≤ 1)) ∧
    (∀ (s : Store Val) (n : ℕ) (e tt : ℚ), s "k" = some ⟨.count n, some e⟩ → e ≤ tt →
      (token_bucket s tt "k" 1 10).2 "k" = some ⟨.count 1, some (tt + ((10 : ℤ) : ℚ))⟩ ∧
      (token_bucket s tt "k" 1 10).1 = decide (1 ≤ 1)) :=
  C4_amended "k" 1 10 0 (by decide)

/-! Claims C6, C8: write-through and write-behind updates. -/

/-- Evaluation of `cache_aside_json` on a decodable hit: the decoded value is
returned, the store untouched, the loader not called. -/
theorem cache_aside_hit (s : Store α) (now : ℚ) (key : String) (ttl : ℤ)
    (loader : Option α) (u : ℚ) (b : Blob α) (jv : JVal α)
    (h : liveGet s now key = some b) (hd : decodeBlob b = some jv) :
    cache_aside_json s now key ttl loader u = ⟨.ok (some jv), s, 0, 1⟩ := by
  unfold cache_aside_json
  simp only [h, hd]

/-- What the pipelined cache-write phase of `update_user` leaves in the store:
the merged record under the user key with the jittered 900s expiry, the widget
under the widget key with the jittered 300s expiry, a dependency set holding
both keys with a 1200s expiry — and nothing else changed. -/
theorem update_user_cache_write_spec (store1 : Store Val) (origin1 : Origin)
    (now : ℚ) (uid : String) (cur : UserRec) (u1 u2 : ℚ) :
    (update_user_cache_write store1 origin1 now uid cur u1 u2) (kv ["user", uid])
      = some ⟨.json (.user cur), some (now + ((_with_jitter 900 u1 : ℤ) : ℚ))⟩ ∧
    (∃ ws, (update_user_cache_write store1 origin1 now uid cur u1 u2) (kv ["widget", "wtf", uid])
      = some ⟨.json (.widget ws), some (now + ((_with_jitter 300 u2 : ℤ) : ℚ))⟩) ∧
    (∃ ms, (update_user_cache_write store1 origin1 now uid cur u1 u2) (kv ["dep", "user", uid])
      = some ⟨.sset ms, some (now + ((1200 : ℤ) : ℚ))⟩ ∧
      kv ["user", uid] ∈ ms ∧ kv ["widget", "wtf", uid] ∈ ms) ∧
    (∀ k2, k2 ≠ kv ["user", uid] → k2 ≠ kv ["widget", "wtf", uid] →
      k2 ≠ kv ["dep", "user", uid] →
      (update_user_cache_write store1 origin1 now uid cur u1 u2) k2 = store1 k2) := by
  unfold update_user_cache_write
  refine ⟨?_, ?_, ?_, ?_⟩
  · rw [expireOp_lookup_ne _ _ _ (kv_user_ne_dep uid)]
    rw [sadd_lookup_ne _ _ _ (kv_user_ne_dep uid)]
    rw [setex_lookup_ne _ _ _ _ (kv_user_ne_widget uid)]
    exact setex_lookup_self _ _ _ _ _
  · rw [expireOp_lookup_ne _ _ _ (kv_widget_ne_dep uid)]
    rw [sadd_lookup_ne _ _ _ (kv_widget_ne_dep uid)]
    exact ⟨_, setex_lookup_self _ _ _ _ _⟩
  · obtain ⟨ms, eo, heq, hmem, hlive⟩ :=
      sadd_spec (setex (setex store1 now (kv ["user", uid]) (_with_jitter 900 u1)
          (.json (.user cur))) now (kv ["widget", "wtf", uid]) (_with_jitter 300 u2)
          (.json (.widget (((origin1.map Prod.fst).filter (fun x => x ≠ uid)).take 3))))
        now (kv ["dep", "user", uid]) [kv ["user", uid], kv ["widget", "wtf", uid]]
    refine ⟨ms, ?_, hmem _ (by simp), hmem _ (by simp)⟩
    rw [expireOp_live_self _ _ _ _ _ heq hlive]
  · intro k2 hk hw hd
    rw [expireOp_lookup_ne _ _ _ hd, sadd_lookup_ne _ _ _ hd,
      setex_lookup_ne _ _ _ _ hw, setex_lookup_ne _ _ _ _ hk]

/-- Variant of `lookup_db_update_user` keyed by any name for the record's id. -/
theorem lookup_db_update_user_of_id (o : Origin) (u : UserRec) {k : String}
    (h : u.id = k) : db_get_user_async (db_update_user o u) k = some u := by
  rw [← h]
  exact lookup_db_update_user o u

/-- The merged record carries the updated entity's id, provided any existing
origin record for `uid` is stored under its own id. -/
theorem mergePatch_id (uid : String) (cur0 : Option UserRec) (patch : UpdateUser)
    (h : ∀ r, cur0 = some r → r.id = uid) :
    (mergePatch uid cur0 patch).id = uid := by
  cases cur0 with
  | none => rfl
  | some r => exact h r rfl

/-- Evaluation of `update_user` in write-through mode: the origin is written
synchronously before the shared cache-write phase. -/
theorem update_user_eval_wt (sys : Sys) (now : ℚ) (uid : String) (patch : UpdateUser)
    (u1 u2 : ℚ) (hmode : patch.mode = "write-through") :
    update_user sys now uid patch u1 u2
      = (⟨update_user_cache_write sys.store
            (db_update_user sys.origin (mergePatch uid (db_get_user_async sys.origin uid) patch))
            now uid (mergePatch uid (db_get_user_async sys.origin uid) patch) u1 u2,
          db_update_user sys.origin (mergePatch uid (db_get_user_async sys.origin uid) patch)⟩,
         mergePatch uid (db_get_user_async sys.origin uid) patch) := by
  unfold update_user
  rw [hmode]
  exact rfl

/-- Evaluation of `update_user` in write-behind mode: the message is enqueued,
the origin is untouched, and the same cache-write phase runs. -/
theorem update_user_eval_wb (sys : Sys) (now : ℚ) (uid : String) (patch : UpdateUser)
    (u1 u2 : ℚ) (hmode : patch.mode = "write-behind") :
    update_user sys now uid patch u1 u2
      = (⟨update_user_cache_write
            (write_behind_enqueue sys.store now "user_update"
              (Val.user (mergePatch uid (db_get_user_async sys.origin uid) patch)))
            sys.origin now uid (mergePatch uid (db_get_user_async sys.origin uid) patch) u1 u2,
          sys.origin⟩,
         mergePatch uid (db_get_user_async sys.origin uid) patch) := by
  unfold update_user
  rw [hmode]
  exact rfl

/-- C6: immediately after a write-through `update_user`, the cache and the
origin agree on the id — the origin holds the merged record, and a cache-aside
read of the user key performed at any time before the entry's (jittered)
expiry returns exactly that merged record without invoking the loader. -/
theorem C6_write_through (sys : Sys) (now t : ℚ) (uid : String) (patch : UpdateUser)
    (u1 u2 : ℚ) (hmode : patch.mode = "write-through") (hWF : OriginWF sys.origin)
    (ht : t < now + ((_with_jitter 900 u1 : ℤ) : ℚ)) :
    db_get_user_async (update_user sys now uid patch u1 u2).1.origin uid
      = some (update_user sys now uid patch u1 u2).2 ∧
    ∀ (ldr : Option Val) (u3 : ℚ),
      (cache_aside_json (update_user sys now uid patch u1 u2).1.store t
          (kv ["user", uid]) 900 ldr u3).result
        = .ok (some (.plain (.user (update_user sys now uid patch u1 u2).2))) ∧
      (cache_aside_json (update_user sys now uid patch u1 u2).1.store t
          (kv ["user", uid]) 900 ldr u3).loaderCalls = 0 := by
  have hid : (mergePatch uid (db_get_user_async sys.origin uid) patch).id = uid :=
    mergePatch_id uid _ patch (fun r hr => lookup_id_of_wf hWF hr)
  rw [update_user_eval_wt sys now uid patch u1 u2 hmode]
  constructor
  · exact lookup_db_update_user_of_id _ _ hid
  · intro ldr u3
    have hkey := (update_user_cache_write_spec sys.store
      (db_update_user sys.origin (mergePatch uid (db_get_user_async sys.origin uid) patch))
      now uid (mergePatch uid (db_get_user_async sys.origin uid) patch) u1 u2).1
    have hliveKey : liveGet (update_user_cache_write sys.store
        (db_update_user sys.origin (mergePatch uid (db_get_user_async sys.origin uid) patch))
        now uid (mergePatch uid (db_get_user_async sys.origin uid) patch) u1 u2) t
        (kv ["user", uid])
        = some (.json (.user (mergePatch uid (db_get_user_async sys.origin uid) patch))) := by
      unfold liveGet
      rw [hkey]
      simp [Entry.live, ht]
    rw [cache_aside_hit _ _ _ _ _ _ _ _ hliveKey rfl]
    exact ⟨rfl, rfl⟩

/-- The user record `"2"` of the simulated origin. -/
def graceRec : UserRec := ⟨"2", "Grace", "Scientist"⟩

/-- The simulated origin `_USERS` in its initial state. -/
def users0 : Origin := [("1", adaRec), ("2", graceRec)]

/-- A write-through patch renaming the user. -/
def wtPatch : UpdateUser := ⟨some "Ada L.", none, "write-through"⟩

/-- C6 witness: the write-through update of user "1" on the pristine origin,
read back at the write time itself. -/
theorem C6_write_through_witness :
    db_get_user_async (update_user ⟨emptyStore, users0⟩ 0 "1" wtPatch 0 0).1.origin "1"
      = some (update_user ⟨emptyStore, users0⟩ 0 "1" wtPatch 0 0).2 ∧
    ∀ (ldr : Option Val) (u3 : ℚ),
      (cache_aside_json (update_user ⟨emptyStore, users0⟩ 0 "1" wtPatch 0 0).1.store 0
          (kv ["user", "1"]) 900 ldr u3).result
        = .ok (some (.plain (.user (update_user ⟨emptyStore, users0⟩ 0 "1" wtPatch 0 0).2))) ∧
      (cache_aside_json (update_user ⟨emptyStore, users0⟩ 0 "1" wtPatch 0 0).1.store 0
          (kv ["user", "1"]) 900 ldr u3).loaderCalls = 0 :=
  C6_write_through ⟨emptyStore, users0⟩ 0 0 "1" wtPatch 0 0 rfl
    (by unfold OriginWF; decide)
    (by
      rw [show _with_jitter 900 0 = 900 by
        unfold _with_jitter pyInt
        rw [if_neg (by decide), if_pos (by norm_num), rat_floor_eq_int_floor]
        norm_num]
      norm_num)

/-- Evaluation of `BLPOP` on a single-message queue: the message is returned
and the key removed. -/
theorem blpop_single (s : Store α) (now : ℚ) (k : String) (item : WBItem α)
    (h : s k = some ⟨.rlist [item], none⟩) :
    blpop s now k = some (item, s.del k) := by
  unfold blpop
  simp only [h]
  rfl

/-- Evaluation of one worker iteration on a queue holding a single
`user_update` message: the payload is applied to the origin. -/
theorem worker_step_user (sys : Sys) (now : ℚ) (cur : UserRec) (ts : ℚ)
    (h : sys.store QUEUE_KEY = some ⟨.rlist [⟨"user_update", .user cur, ts⟩], none⟩) :
    (write_behind_worker_step sys now).origin = db_update_user sys.origin cur := by
  unfold write_behind_worker_step
  rw [blpop_single _ _ _ _ h]
  exact rfl

/-- C8: a write-behind `update_user` performs, before returning, exactly the
same synchronous cache writes as write-through — the merged record under the
user key, the widget under the widget key, both recorded in the id's
dependency set — while the origin is left untouched and the message
`{"topic": "user_update", "payload": merged, "ts": now}` is enqueued; a
cache-aside read right after the call (before the jittered expiry) therefore
returns the new merged value, and the origin only holds it after the
write-behind worker pops and applies the queued message. -/
theorem C8_write_behind (sys : Sys) (now t : ℚ) (uid : String) (patch : UpdateUser)
    (u1 u2 : ℚ) (hmode : patch.mode = "write-behind") (hWF : OriginWF sys.origin)
    (hq : sys.store QUEUE_KEY = none)
    (ht : t < now + ((_with_jitter 900 u1 : ℤ) : ℚ)) :
    (update_user sys now uid patch u1 u2).1.store (kv ["user", uid])
      = some ⟨.json (.user (update_user sys now uid patch u1 u2).2),
          some (now + ((_with_jitter 900 u1 : ℤ) : ℚ))⟩ ∧
    (∃ ws, (update_user sys now uid patch u1 u2).1.store (kv ["widget", "wtf", uid])
      = some ⟨.json (.widget ws), some (now + ((_with_jitter 300 u2 : ℤ) : ℚ))⟩) ∧
    (∃ ms, (update_user sys now uid patch u1 u2).1.store (kv ["dep", "user", uid])
      = some ⟨.sset ms, some (now + ((1200 : ℤ) : ℚ))⟩ ∧
      kv ["user", uid] ∈ ms ∧ kv ["widget", "wtf", uid] ∈ ms) ∧
    (update_user sys now uid patch u1 u2).1.origin = sys.origin ∧
    (update_user sys now uid patch u1 u2).1.store QUEUE_KEY
      = some ⟨.rlist [⟨"user_update", .user (update_user sys now uid patch u1 u2).2, now⟩],
          none⟩ ∧
    (∀ (ldr : Option Val) (u3 : ℚ),
      (cache_aside_json (update_user sys now uid patch u1 u2).1.store t
          (kv ["user", uid]) 900 ldr u3).result
        = .ok (some (.plain (.user (update_user sys now uid patch u1 u2).2))) ∧
      (cache_aside_json (update_user sys now uid patch u1 u2).1.store t
          (kv ["user", uid]) 900 ldr u3).loaderCalls = 0) ∧
    db_get_user_async
        (write_behind_worker_step (update_user sys now uid patch u1 u2).1 now).origin uid
      = some (update_user sys now uid patch u1 u2).2 := by
  have hid : (mergePatch uid (db_get_user_async sys.origin uid) patch).id = uid :=
    mergePatch_id uid _ patch (fun r hr => lookup_id_of_wf hWF hr)
  rw [update_user_eval_wb sys now uid patch u1 u2 hmode]
  dsimp only
  obtain ⟨hk, hw, hdep, hframe⟩ := update_user_cache_write_spec
    (write_behind_enqueue sys.store now "user_update"
      (Val.user (mergePatch uid (db_get_user_async sys.origin uid) patch)))
    sys.origin now uid (mergePatch uid (db_get_user_async sys.origin uid) patch) u1 u2
  have henq : (write_behind_enqueue sys.store now "user_update"
      (Val.user (mergePatch uid (db_get_user_async sys.origin uid) patch))) QUEUE_KEY
      = some ⟨.rlist [⟨"user_update",
          .user (mergePatch uid (db_get_user_async sys.origin uid) patch), now⟩], none⟩ := by
    unfold write_behind_enqueue rpush
    simp only [hq]
    exact Store.upd_self _ _ _
  have hqueue : (update_user_cache_write
      (write_behind_enqueue sys.store now "user_update"
        (Val.user (mergePatch uid (db_get_user_async sys.origin uid) patch)))
      sys.origin now uid (mergePatch uid (db_get_user_async sys.origin uid) patch) u1 u2)
      QUEUE_KEY
      = some ⟨.rlist [⟨"user_update",
          .user (mergePatch uid (db_get_user_async sys.origin uid) patch), now⟩], none⟩ := by
    rw [hframe QUEUE_KEY (queue_ne_kv_user uid) (queue_ne_kv_widget uid) (queue_ne_kv_dep uid)]
    exact henq
  refine ⟨hk, hw, hdep, rfl, hqueue, ?_, ?_⟩
  · intro ldr u3
    have hliveKey : liveGet (update_user_cache_write
        (write_behind_enqueue sys.store now "user_update"
          (Val.user (mergePatch uid (db_get_user_async sys.origin uid) patch)))
        sys.origin now uid (mergePatch uid (db_get_user_async sys.origin uid) patch) u1 u2) t
        (kv ["user", uid])
        = some (.json (.user (mergePatch uid (db_get_user_async sys.origin uid) patch))) := by
      unfold liveGet
      rw [hk]
      simp [Entry.live, ht]
    rw [cache_aside_hit _ _ _ _ _ _ _ _ hliveKey rfl]
    exact ⟨rfl, rfl⟩
  · rw [worker_step_user _ now (mergePatch uid (db_get_user_async sys.origin uid) patch) now
      hqueue]
    exact lookup_db_update_user_of_id _ _ hid

/-- A write-behind patch renaming the user. -/
def wbPatch : UpdateUser := ⟨some "Ada L.", none, "write-behind"⟩

/-- C8 witness: the write-behind update of user "1" on the pristine origin and
an empty store, read back at the write time itself. -/
theorem C8_write_behind_witness :
    (update_user ⟨emptyStore, users0⟩ 0 "1" wbPatch 0 0).1.store (kv ["user", "1"])
      = some ⟨.json (.user (update_user ⟨emptyStore, users0⟩ 0 "1" wbPatch 0 0).2),
          some (0 + ((_with_jitter 900 0 : ℤ) : ℚ))⟩ ∧
    (∃ ws, (update_user ⟨emptyStore, users0⟩ 0 "1" wbPatch 0 0).1.store (kv ["widget", "wtf", "1"])
      = some ⟨.json (.widget ws), some (0 + ((_with_jitter 300 0 : ℤ) : ℚ))⟩) ∧
    (∃ ms, (update_user ⟨emptyStore, users0⟩ 0 "1" wbPatch 0 0).1.store (kv ["dep", "user", "1"])
      = some ⟨.sset ms, some (0 + ((1200 : ℤ) : ℚ))⟩ ∧
      kv ["user", "1"] ∈ ms ∧ kv ["widget", "wtf", "1"] ∈ ms) ∧
    (update_user ⟨emptyStore, users0⟩ 0 "1" wbPatch 0 0).1.origin = (⟨emptyStore, users0⟩ : Sys).origin ∧
    (update_user ⟨emptyStore, users0⟩ 0 "1" wbPatch 0 0).1.store QUEUE_KEY
      = some ⟨.rlist [⟨"user_update", .user (update_user ⟨emptyStore, users0⟩ 0 "1" wbPatch 0 0).2, 0⟩],
          none⟩ ∧
    (∀ (ldr : Option Val) (u3 : ℚ),
      (cache_aside_json (update_user ⟨emptyStore, users0⟩ 0 "1" wbPatch 0 0).1.store 0
          (kv ["user", "1"]) 900 ldr u3).result
        = .ok (some (.plain (.user (update_user ⟨emptyStore, users0⟩ 0 "1" wbPatch 0 0).2))) ∧
      (cache_aside_json (update_user ⟨emptyStore, users0⟩ 0 "1" wbPatch 0 0).1.store 0
          (kv ["user", "1"]) 900 ldr u3).loaderCalls = 0) ∧
    db_get_user_async
        (write_behind_worker_step (update_user ⟨emptyStore, users0⟩ 0 "1" wbPatch 0 0).1 0).origin "1"
      = some (update_user ⟨emptyStore, users0⟩ 0 "1" wbPatch 0 0).2 :=
  C8_write_behind ⟨emptyStore, users0⟩ 0 0 "1" wbPatch 0 0 rfl
    (by unfold OriginWF; decide) rfl
    (by
      rw [show _with_jitter 900 0 = 900 by
        unfold _with_jitter pyInt
        rw [if_neg (by decide), if_pos (by norm_num), rat_floor_eq_int_floor]
        norm_num]
      norm_num)

/-! Claim C9: bulk reads do not recognize the negative marker. -/

/-- A `bulkStep` never removes an id already classified as a miss. -/
theorem bulk_misses_mono (s : Store Val) (now : ℚ) :
    ∀ (uids : List String) (acc : List (String × JVal Val) × List String) (x : String),
      x ∈ acc.2 → x ∈ (uids.foldl (bulkStep s now) acc).2 := by
  intro uids
  induction uids with
  | nil => exact fun acc x hx => hx
  | cons hd tl ih =>
    intro acc x hx
    apply ih
    unfold bulkStep
    cases h1 : liveGet s now (kv ["user", hd]) with
    | none => exact List.mem_append_left _ hx
    | some b =>
      dsimp only
      cases h2 : decodeBlob b with
      | none => exact List.mem_append_left _ hx
      | some jv => cases jv <;> exact hx

/-- Every requested id whose key holds a blob `json.loads` rejects — in
particular the `"__nil__"` sentinel — ends up classified as a miss. -/
theorem bulk_nil_is_miss (s : Store Val) (now : ℚ) (uid : String)
    (hnil : liveGet s now (kv ["user", uid]) = some .nil) :
    ∀ (uids : List String), uid ∈ uids →
      ∀ acc, uid ∈ (uids.foldl (bulkStep s now) acc).2 := by
  intro uids
  induction uids with
  | nil => exact fun h => absurd h (List.not_mem_nil uid)
  | cons hd tl ih =>
    intro hmem acc
    rcases List.mem_cons.1 hmem with heq | htl
    · subst heq
      rw [List.foldl_cons]
      apply bulk_misses_mono
      show uid ∈ (bulkStep s now acc uid).2
      unfold bulkStep
      rw [hnil]
      exact List.mem_append_right _ (by simp)
    · exact ih htl _

/-- C9: bulk reads do not recognize the `NegativeMarker` sentinel: an id whose
key holds `"__nil__"` fails JSON decoding and is treated as a miss, so the
origin loader is invoked again for it; when the origin is still absent a fresh
sentinel is rewritten with a fresh `NEG_TTL` and the id is omitted from the
result — so negative markers never suppress origin lookups on later bulk
reads. -/
theorem C9_bulk_ignores_marker (s : Store Val) (now : ℚ) (origin : Origin)
    (uids : List String) (uid : String) (ttl : ℤ) (draw : String → ℚ)
    (hmem : uid ∈ uids) (hnil : liveGet s now (kv ["user", uid]) = some .nil) :
    uid ∈ (bulk_users s now origin uids ttl draw).fetches ∧
    (db_get_user_async origin uid = none →
      (bulk_users s now origin [uid] ttl draw).store (kv ["user", uid])
        = some ⟨.nil, some (now + (NEG_TTL : ℚ))⟩ ∧
      (bulk_users s now origin [uid] ttl draw).hits.lookup uid = none) := by
  have hstep : bulkStep s now ([], []) uid = ([], [uid]) := by
    unfold bulkStep
    rw [hnil]
    exact rfl
  constructor
  · show uid ∈ (uids.foldl (bulkStep s now) ([], [])).2
    exact bulk_nil_is_miss s now uid hnil uids hmem ([], [])
  · intro horigin
    have hfold : [uid].foldl (bulkStep s now) ([], []) = ([], [uid]) := hstep
    have heval : bulk_users s now origin [uid] ttl draw
        = ⟨[], setex s now (kv ["user", uid]) NEG_TTL .nil, [uid]⟩ := by
      unfold bulk_users
      simp only [hfold]
      simp only [List.map, horigin, List.foldl, List.filterMap, dictUpdate]
    rw [heval]
    exact ⟨setex_lookup_self _ _ _ _ _, rfl⟩

/-- A store holding the negative sentinel for user "9" under her user key. -/
def nilStore : Store Val := Store.upd emptyStore "v1:user:9" ⟨.nil, none⟩

/-- C9 witness: a bulk read of the single id `"9"` whose key holds the
sentinel, with `"9"` absent from the origin. -/
theorem C9_bulk_ignores_marker_witness :
    "9" ∈ (bulk_users nilStore 0 users0 ["9"] 900 (fun _ => 0)).fetches ∧
    (db_get_user_async users0 "9" = none →
      (bulk_users nilStore 0 users0 ["9"] 900 (fun _ => 0)).store (kv ["user", "9"])
        = some ⟨.nil, some (0 + (NEG_TTL : ℚ))⟩ ∧
      (bulk_users nilStore 0 users0 ["9"] 900 (fun _ => 0)).hits.lookup "9" = none) :=
  C9_bulk_ignores_marker nilStore 0 users0 ["9"] "9" 900 (fun _ => 0)
    (by decide) (by decide)

end CacheService
